import Mathlib

/-!
# maddy: composition of modules and endpoints (`module_main.go`)

A shallow embedding of `instancesFromConfig` and of the shutdown loop of
`moduleMain`.  Go's global state of package `module` (the instance registry,
the alias table and the `Initialized` table) is passed explicitly as a
`Registry`; the behaviour of the pluggable code (factories, `Init`, `Close`)
is supplied by an environment `Env`.  Every call that the orchestrator makes
into package `module` or into pluggable code is recorded, in order, in a
ghost call trace.
-/

namespace Maddy

/-! ## Data model -/

/-- The type `config.Node`: a named block with positional arguments, child
directives and the source location (`File`, `Line`) it was parsed from. -/
inductive Node where
  | mk (name : String) (args : List String) (children : List Node)
      (file : String) (line : Nat)

namespace Node

/-- Field `Name`. -/
def name : Node → String
  | mk n _ _ _ _ => n

/-- Field `Args`. -/
def args : Node → List String
  | mk _ a _ _ _ => a

/-- Field `Children`. -/
def children : Node → List Node
  | mk _ _ c _ _ => c

/-- Field `File`. -/
def file : Node → String
  | mk _ _ _ f _ => f

/-- Field `Line`. -/
def line : Node → Nat
  | mk _ _ _ _ l => l

end Node

/-- An argument of a `Printf`-style format: `%s` takes `str`, `%d` takes `int`. -/
inductive FmtArg where
  | str (s : String)
  | int (n : Nat)
  deriving DecidableEq, Repr

/-- Go `error` values that `instancesFromConfig` can return.  Formatted errors
are kept as the format string together with its arguments. -/
inductive Err where
  /-- The error `config.NodeErr(&block, format, args...)`: a message attached
  to the source location of `block`. -/
  | nodeErr (file : String) (line : Nat) (format : String) (args : List FmtArg)
  /-- The error `fmt.Errorf(format, args...)`. -/
  | errorf (format : String) (args : List FmtArg)
  /-- An error value made by pluggable code (a factory, `Init`, `Close`). -/
  | plugin (msg : String)
  deriving DecidableEq, Repr

/-- A value of interface type `module.Module`, as far as the orchestrator
observes it: the results of `Name()` and `InstanceName()`, whether the dynamic
type also implements `io.Closer`, and the identity of the object. -/
structure Module where
  /-- Result of `Name()`. -/
  name : String
  /-- Result of `InstanceName()`. -/
  instanceName : String
  /-- Whether the type assertion `inst.(io.Closer)` succeeds. -/
  closer : Bool
  /-- Identity of the object behind the interface value. -/
  addr : Nat
  deriving DecidableEq, Repr

/-- The `globals` argument (`map[string]interface{}`), as an association list. -/
abbrev Globals := List (String × String)

/-- The value `config.NewMap(globals, &block)`: the configuration view built
from the global options and one block. -/
structure ConfigMap where
  globals : Globals
  block : Node

/-- Modelled from the spec: package `module` is not part of the sources at
hand.  Its global state is the instance table ("register the resulting
instance under its instance name"), the alias table ("a name that resolves to
an existing instance name") and the table `module.Initialized` read at
`module_main.go:146`. -/
structure Registry where
  /-- Instance name ↦ registered instance and its configuration. -/
  instances : List (String × Module × ConfigMap)
  /-- Alias name ↦ instance name. -/
  aliases : List (String × String)
  /-- Names `n` with `module.Initialized[n] == true`. -/
  initialized : List String

/-- The struct `modInfo`. -/
structure modInfo where
  /-- Field `instance`. -/
  inst : Module
  /-- Field `cfg`. -/
  cfg : Node

/-- Calls made by the orchestrator, in the order they happen. -/
inductive Event where
  /-- A call `endpFactory(modName, block.Args)`. -/
  | endpFactory (modName : String) (args : List String)
  /-- A call `module.HasInstance(name)`. -/
  | hasInstance (name : String)
  /-- A call `factory(modName, instName, modAliases, nil)`. -/
  | factory (modName instName : String) (aliases : List String)
  /-- A call `module.RegisterInstance(inst, cfg)`. -/
  | registerInstance (inst : Module) (cfg : ConfigMap)
  /-- A call `module.RegisterAlias(aliasName, instName)`. -/
  | registerAlias (aliasName instName : String)
  /-- A call `inst.Init(cfg)`. -/
  | init (inst : Module) (cfg : ConfigMap)

/-- The state threaded through `instancesFromConfig`: the globals of package
`module` and the ghost call trace. -/
structure World where
  reg : Registry
  trace : List Event

/-- Record one call at the end of the trace. -/
def World.emit (w : World) (e : Event) : World :=
  { w with trace := w.trace ++ [e] }

/-- The pluggable code the orchestrator calls into. -/
structure Env where
  /-- The lookup `module.GetEndpoint(name)`; `none` is the nil factory. -/
  getEndpoint : String → Option (String → List String → Except Err Module)
  /-- The lookup `module.Get(name)`; `none` is the nil factory.  The factory
  takes `(modName, instName, aliases, inlineArgs)`. -/
  get : String → Option (String → String → List String → List String → Except Err Module)
  /-- The method `inst.Init(cfg)`: it may change the globals of package
  `module` (it marks instances it pulls in as initialized) and may fail. -/
  init : Module → ConfigMap → Registry → Registry × Option Err

/-! ## Package `module` and `config` helpers -/

/-- Modelled from the spec: `module.HasInstance` is not part of the sources at
hand.  A name is taken when it "collides with any existing instance or
alias". -/
def HasInstance (reg : Registry) (name : String) : Bool :=
  decide (name ∈ reg.instances.map Prod.fst) || decide (name ∈ reg.aliases.map Prod.fst)

/-- Modelled from the spec: `module.RegisterInstance` is not part of the
sources at hand.  "Register the resulting instance under its instance name". -/
def RegisterInstance (inst : Module) (cfg : ConfigMap) (reg : Registry) : Registry :=
  { reg with instances := (inst.instanceName, inst, cfg) :: reg.instances }

/-- Modelled from the spec: `module.RegisterAlias` is not part of the sources
at hand.  An alias is "a name that resolves to an existing instance name". -/
def RegisterAlias (aliasName instName : String) (reg : Registry) : Registry :=
  { reg with aliases := (aliasName, instName) :: reg.aliases }

/-- Modelled from the spec: `config.NodeErr` is not part of the sources at
hand.  It makes an error "naming the offending block's source location". -/
def NodeErr (block : Node) (format : String) (args : List FmtArg) : Err :=
  Err.nodeErr block.file block.line format args

/-- The constructor `config.NewMap(globals, &block)`. -/
def NewMap (globals : Globals) (block : Node) : ConfigMap :=
  { globals := globals, block := block }

/-! ## `instancesFromConfig` -/

/-- The value of `instName` after `module_main.go:90-95`. -/
def instNameOf (block : Node) : String :=
  match block.args with
  | [] => block.name
  | a :: _ => a

/-- The value of `modAliases` after `module_main.go:90-95` (`block.Args[1:]`,
and the nil slice when there are no arguments). -/
def modAliasesOf (block : Node) : List String :=
  match block.args with
  | [] => []
  | _ :: rest => rest

/-- The two local slices `endpoints` and `mods`. -/
structure Acc where
  endpoints : List modInfo
  mods : List modInfo

/-- The loop of `module_main.go:126-131` over the not yet visited aliases.
The result `some err` is the early `return nil, err`. -/
def aliasLoop (block : Node) (instName : String) : List String → World → World × Option Err
  | [], w => (w, none)
  | aliasName :: rest, w =>
    let w1 := w.emit (Event.hasInstance aliasName)
    if HasInstance w1.reg aliasName then
      (w1, some (NodeErr block "config block named %s already exists" [FmtArg.str aliasName]))
    else
      aliasLoop block instName rest
        ({ w1 with reg := RegisterAlias aliasName instName w1.reg }.emit
          (Event.registerAlias aliasName instName))

/-- One iteration of the loop of `module_main.go:87-133`.  The result
`Except.error err` is the early `return nil, err`. -/
def processBlock (env : Env) (globals : Globals) (block : Node) (acc : Acc) (w : World) :
    World × Except Err Acc :=
  let instName := instNameOf block
  let modAliases := modAliasesOf block
  let modName := block.name
  match env.getEndpoint modName with
  | some endpFactory =>
    let w1 := w.emit (Event.endpFactory modName block.args)
    match endpFactory modName block.args with
    | Except.error err => (w1, Except.error err)
    | Except.ok inst =>
      (w1, Except.ok { acc with endpoints := acc.endpoints ++ [{ inst := inst, cfg := block }] })
  | none =>
    match env.get modName with
    | none =>
      (w, Except.error
        (NodeErr block "unknown module or global directive: %s" [FmtArg.str modName]))
    | some factory =>
      let w1 := w.emit (Event.hasInstance instName)
      if HasInstance w1.reg instName then
        (w1, Except.error
          (NodeErr block "config block named %s already exists" [FmtArg.str instName]))
      else
        let w2 := w1.emit (Event.factory modName instName modAliases)
        match factory modName instName modAliases [] with
        | Except.error err => (w2, Except.error err)
        | Except.ok inst =>
          let cfg := NewMap globals block
          let w3 := { w2 with reg := RegisterInstance inst cfg w2.reg }.emit
            (Event.registerInstance inst cfg)
          match aliasLoop block instName modAliases w3 with
          | (w4, some err) => (w4, Except.error err)
          | (w4, none) =>
            (w4, Except.ok { acc with mods := acc.mods ++ [{ inst := inst, cfg := block }] })

/-- The loop of `module_main.go:87-133` over the not yet visited blocks. -/
def blocksLoop (env : Env) (globals : Globals) : List Node → Acc → World → World × Except Err Acc
  | [], acc, w => (w, Except.ok acc)
  | block :: rest, acc, w =>
    match processBlock env globals block acc w with
    | (w1, Except.error err) => (w1, Except.error err)
    | (w1, Except.ok acc1) => blocksLoop env globals rest acc1 w1

/-- The loop of `module_main.go:139-143` over the not yet visited endpoints. -/
def initLoop (env : Env) (globals : Globals) : List modInfo → World → World × Option Err
  | [], w => (w, none)
  | endp :: rest, w =>
    let cfg := NewMap globals endp.cfg
    let w1 := w.emit (Event.init endp.inst cfg)
    match env.init endp.inst cfg w1.reg with
    | (reg, some err) => ({ w1 with reg := reg }, some err)
    | (reg, none) => initLoop env globals rest { w1 with reg := reg }

/-- The loop of `module_main.go:145-152` over the not yet visited modules. -/
def unusedLoop (reg : Registry) : List modInfo → Option Err
  | [] => none
  | inst :: rest =>
    if inst.inst.instanceName ∈ reg.initialized then
      unusedLoop reg rest
    else
      some (Err.errorf "Unused configuration block at %s:%d - %s (%s)"
        [FmtArg.str inst.cfg.file, FmtArg.int inst.cfg.line,
         FmtArg.str inst.inst.instanceName, FmtArg.str inst.inst.name])

/-- What a call of `instancesFromConfig` leaves behind: the two Go results
(a nil slice is the empty list, a nil error is `none`) and the final state. -/
structure Outcome where
  insts : List Module
  err : Option Err
  world : World

/-- The function `instancesFromConfig(globals, nodes)`, run in state `w`. -/
def instancesFromConfig (env : Env) (globals : Globals) (nodes : List Node) (w : World) :
    Outcome :=
  match blocksLoop env globals nodes { endpoints := [], mods := [] } w with
  | (w1, Except.error err) => { insts := [], err := some err, world := w1 }
  | (w1, Except.ok acc) =>
    if acc.endpoints.length = 0 then
      { insts := [],
        err := some (Err.errorf "at least one endpoint should be configured" []),
        world := w1 }
    else
      match initLoop env globals acc.endpoints w1 with
      | (w2, some err) => { insts := [], err := some err, world := w2 }
      | (w2, none) =>
        match unusedLoop w2.reg acc.mods with
        | some err => { insts := [], err := some err, world := w2 }
        | none =>
          { insts := acc.endpoints.map modInfo.inst ++ acc.mods.map modInfo.inst,
            err := none,
            world := w2 }

/-! ## `moduleMain` -/

/-- One line written by `log.Printf(format, args..., err)`, the last verb
being the `%v` of the error. -/
structure LogLine where
  format : String
  args : List FmtArg
  cause : Err
  deriving DecidableEq, Repr

/-- The state of the shutdown loop: the state `ext` that the `Close` methods
act on, the ghost list of the instances `Close` was called on so far, and the
log output so far. -/
structure Shutdown (σ : Type) where
  ext : σ
  closed : List Module
  log : List LogLine

/-- The loop of `module_main.go:65-71` over the not yet visited instances.
The method `closer.Close()` is `close inst`. -/
def closeLoop {σ : Type} (close : Module → σ → σ × Option Err) :
    List Module → Shutdown σ → Shutdown σ
  | [], s => s
  | inst :: rest, s =>
    if inst.closer then
      match close inst s.ext with
      | (ext, some err) =>
        closeLoop close rest
          { ext := ext,
            closed := s.closed ++ [inst],
            log := s.log ++ [{ format := "module %s (%s) close failed: %v",
                               args := [FmtArg.str inst.name, FmtArg.str inst.instanceName],
                               cause := err }] }
      | (ext, none) =>
        closeLoop close rest { ext := ext, closed := s.closed ++ [inst], log := s.log }
    else
      closeLoop close rest s

/-- What `moduleMain` calls besides `instancesFromConfig`. -/
structure MainEnv (σ : Type) extends Env where
  /-- The result of `globals.Process()` on the map built at
  `module_main.go:31-42`: an error, or `globals.Values` and the blocks left
  unknown. -/
  processGlobals : List Node → Except Err (Globals × List Node)
  /-- The result of `InitDirs()`. -/
  initDirs : Option Err
  /-- The method `Close()` of an instance that implements `io.Closer`. -/
  close : Module → σ → σ × Option Err

/-- What a call of `moduleMain` leaves behind: the returned error, the state of
package `module`, and the state of the shutdown loop. -/
structure MainOutcome (σ : Type) where
  err : Option Err
  world : World
  shutdown : Shutdown σ

/-- The function `moduleMain(cfg)`, run in state `w` and `s`.  The calls
`systemdStatus` and `handleSignals` between composition and shutdown return
nothing and are left out. -/
def moduleMain {σ : Type} (env : MainEnv σ) (cfg : List Node) (w : World) (s : σ) :
    MainOutcome σ :=
  let idle : Shutdown σ := { ext := s, closed := [], log := [] }
  match env.processGlobals cfg with
  | Except.error err => { err := some err, world := w, shutdown := idle }
  | Except.ok (values, unknown) =>
    match env.initDirs with
    | some err => { err := some err, world := w, shutdown := idle }
    | none =>
      let out := instancesFromConfig env.toEnv values unknown w
      match out.err with
      | some err => { err := some err, world := out.world, shutdown := idle }
      | none => { err := none, world := out.world, shutdown := closeLoop env.close out.insts idle }

/-! ## A small installation used for concrete runs -/

/-- The empty state of package `module` at process start. -/
def World.start : World :=
  { reg := { instances := [], aliases := [], initialized := [] }, trace := [] }

/-- A block without children, parsed from `maddy.conf`. -/
def blockAt (line : Nat) (name : String) (args : List String) : Node :=
  Node.mk name args [] "maddy.conf" line

/-- A block whose children are directives without children of their own. -/
def blockWith (line : Nat) (name : String) (args : List String)
    (directives : List (String × List String)) : Node :=
  Node.mk name args (directives.map fun d => Node.mk d.1 d.2 [] "maddy.conf" (line + 1))
    "maddy.conf" line

/-- The endpoint factory of the sample installation: the instance is named
after the first argument of the block, or after the block when there is none. -/
def smtpFactory (modName : String) (args : List String) : Except Err Module :=
  Except.ok { name := modName, instanceName := args.headD modName, closer := true,
              addr := args.length }

/-- The module factory of the sample installation.  It refuses the instance
name `broken`. -/
def sqlFactory (modName instName : String) (aliases _inlineArgs : List String) :
    Except Err Module :=
  if instName = "broken" then Except.error (Err.plugin "sql: cannot open database")
  else Except.ok { name := modName, instanceName := instName, closer := false,
                   addr := 100 + aliases.length }

/-- An installation with one endpoint type `smtp` and one module type `sql`.
The `Init` of an endpoint fails on a directive `tls`, and otherwise marks every
name given as argument of one of its directives as initialized. -/
def sampleEnv : Env where
  getEndpoint := fun n => if n = "smtp" then some smtpFactory else none
  get := fun n => if n = "sql" then some sqlFactory else none
  init := fun _ cfg reg =>
    if "tls" ∈ cfg.block.children.map Node.name then
      (reg, some (Err.plugin "smtp: tls: certificate not found"))
    else
      ({ reg with
          initialized := reg.initialized ++ (cfg.block.children.map Node.args).flatten },
        none)

/-- The sample installation as `moduleMain` sees it: every block is left to
`instancesFromConfig`, the directories can be made, and `Close` counts its
calls and fails for the instance named `mx`. -/
def sampleMain : MainEnv Nat where
  toEnv := sampleEnv
  processGlobals := fun cfg => Except.ok ([], cfg)
  initDirs := none
  close := fun inst n =>
    (n + 1, if inst.instanceName = "mx" then some (Err.plugin "smtp: close failed") else none)

/-- The sample installation with the name `smtp` registered as a module type
as well. -/
def overlapEnv : Env :=
  { sampleEnv with
    get := fun n => if n = "smtp" then some sqlFactory else sampleEnv.get n }

/-! ## Vocabulary of the statements -/

/-- A block is an endpoint block when its name is a registered endpoint type. -/
def isEndpointBlock (env : Env) (b : Node) : Bool :=
  (env.getEndpoint b.name).isSome

/-- A block is a module block when its name is not a registered endpoint type
and is a registered module type. -/
def isModuleBlock (env : Env) (b : Node) : Bool :=
  (env.getEndpoint b.name).isNone && (env.get b.name).isSome

/-- The instance that the endpoint factory produces for an endpoint block. -/
def endpointOf (env : Env) (b : Node) : Option modInfo :=
  match env.getEndpoint b.name with
  | none => none
  | some endpFactory =>
    match endpFactory b.name b.args with
    | Except.error _ => none
    | Except.ok inst => some { inst := inst, cfg := b }

/-- The instance that the module factory produces for a module block. -/
def moduleOf (env : Env) (b : Node) : Option modInfo :=
  match env.getEndpoint b.name with
  | some _ => none
  | none =>
    match env.get b.name with
    | none => none
    | some factory =>
      match factory b.name (instNameOf b) (modAliasesOf b) [] with
      | Except.error _ => none
      | Except.ok inst => some { inst := inst, cfg := b }

/-- The names that are taken in the registry: instance names and aliases. -/
def taken (reg : Registry) : List String :=
  reg.instances.map Prod.fst ++ reg.aliases.map Prod.fst

/-- The error of `module_main.go:136`. -/
def errNoEndpoint : Err :=
  Err.errorf "at least one endpoint should be configured" []

/-- The error of `module_main.go:112` for a block. -/
def errUnknown (block : Node) : Err :=
  NodeErr block "unknown module or global directive: %s" [FmtArg.str block.name]

/-- The error of `module_main.go:116` and `module_main.go:128` for a block and
a name. -/
def errDuplicate (block : Node) (name : String) : Err :=
  NodeErr block "config block named %s already exists" [FmtArg.str name]

/-- The error of `module_main.go:150` for an entry of `mods`. -/
def errUnused (m : modInfo) : Err :=
  Err.errorf "Unused configuration block at %s:%d - %s (%s)"
    [FmtArg.str m.cfg.file, FmtArg.int m.cfg.line,
     FmtArg.str m.inst.instanceName, FmtArg.str m.inst.name]

/-- The factory contract for a module block: the instance made for it reports
the instance name it was asked to take. -/
def NamesAsAsked (env : Env) (b : Node) : Prop :=
  ∀ m, moduleOf env b = some m → m.inst.instanceName = instNameOf b

/-- The names under which an entry of `mods` is registered: the instance name
its instance reports, and the aliases of its block. -/
def namesOf (m : modInfo) : List String :=
  m.inst.instanceName :: modAliasesOf m.cfg

/-- The names that the module blocks of a tree register, in registration
order, when each of them is processed without error. -/
def registeredNames (env : Env) (nodes : List Node) : List String :=
  (nodes.filterMap (moduleOf env)).flatMap namesOf

/-- The names that the blocks of a tree which are not endpoint blocks declare,
in config-tree order: for each block its instance name, then its aliases. -/
def declaredNames (env : Env) (nodes : List Node) : List String :=
  (nodes.filter fun b => !isEndpointBlock env b).flatMap
    fun b => instNameOf b :: modAliasesOf b

/-- Whether an event is a call of `Init`. -/
def Event.isInit : Event → Bool
  | Event.init _ _ => true
  | _ => false

/-- Whether an event is a call of a module factory. -/
def Event.isFactory : Event → Bool
  | Event.factory _ _ _ => true
  | _ => false

/-- The call `endp.instance.Init(config.NewMap(globals, &endp.cfg))` of
`module_main.go:140` for an entry of `endpoints`. -/
def initEvent (g : Globals) (endp : modInfo) : Event :=
  Event.init endp.inst (NewMap g endp.cfg)

/-- The calls made for the aliases of a block that are registered without
error: for each alias the check and the registration. -/
def aliasEvents (instName : String) (aliases : List String) : List Event :=
  aliases.flatMap fun a => [Event.hasInstance a, Event.registerAlias a instName]

/-- The calls made while a block is processed without error: the factory call
for an endpoint block; for a module block the check of the instance name, the
factory call, the registration of the instance and the calls for the aliases. -/
def blockEvents (env : Env) (g : Globals) (b : Node) : List Event :=
  if isEndpointBlock env b then
    [Event.endpFactory b.name b.args]
  else
    match moduleOf env b with
    | none => []
    | some m =>
      [Event.hasInstance (instNameOf b),
       Event.factory b.name (instNameOf b) (modAliasesOf b),
       Event.registerInstance m.inst (NewMap g b)] ++
        aliasEvents (instNameOf b) (modAliasesOf b)

/-- The entries that the module blocks of a tree add to the instance table
when each of them is processed without error, in registration order. -/
def instanceEntries (env : Env) (g : Globals) (nodes : List Node) :
    List (String × Module × ConfigMap) :=
  (nodes.filterMap (moduleOf env)).map fun m => (m.inst.instanceName, m.inst, NewMap g m.cfg)

/-- The entries that the module blocks of a tree add to the alias table when
each of them is processed without error, in registration order. -/
def aliasEntries (env : Env) (nodes : List Node) : List (String × String) :=
  (nodes.filterMap (moduleOf env)).flatMap fun m =>
    (modAliasesOf m.cfg).map fun a => (a, instNameOf m.cfg)

/-! ## The DNS checks of package `check/dns`

Only the tests of `requireMatchingRDNS`, `requireMXRecord` and
`requireMatchingEHLO` are at hand (`check/dns/dns_test.go`); the checks
themselves are modelled from the description of the check framework. -/

/-- An IP address as the checks compare it: the address family and the value. -/
inductive IP where
  | v4 (a b c d : Nat)
  | v6 (groups : List Nat)
  deriving DecidableEq, Repr

/-- Whether two addresses belong to the same address family. -/
def IP.sameFamily : IP → IP → Bool
  | IP.v4 _ _ _ _, IP.v4 _ _ _ _ => true
  | IP.v6 _, IP.v6 _ => true
  | _, _ => false

/-- Modelled from the spec: the resolver interface is not part of the sources
at hand.  The outcome of a lookup is "a result set or a distinguished
not-found/NXDOMAIN outcome versus a transient-error outcome". -/
inductive Lookup (α : Type) where
  | found (result : α)
  | notFound
  | failed

/-- The records a lookup has resolved: none when the name does not exist, and
none when the lookup failed. -/
def Lookup.records {α : Type} : Lookup (List α) → List α
  | Lookup.found rs => rs
  | Lookup.notFound => []
  | Lookup.failed => []

/-- An MX record (`net.MX`). -/
structure MX where
  host : String
  pref : Nat
  deriving DecidableEq, Repr

/-- The resolver capability used by the checks: "A/AAAA lookup by name, MX
lookup by domain". -/
structure Resolver where
  lookupA : String → Lookup (List IP)
  lookupAAAA : String → Lookup (List IP)
  lookupMX : String → Lookup (List MX)

/-- The per-connection facts a check reads from `check.StatelessCheckContext`:
the resolver, the remote IP (`MsgMeta.Conn.RemoteAddr`), the declared hostname
(`MsgMeta.Conn.Hostname`) and the outcome of the memoized reverse-DNS lookup
(`MsgMeta.Conn.RDNSName`). -/
structure StatelessCheckContext where
  resolver : Resolver
  remoteIP : IP
  hostname : String
  rdnsName : Lookup String

/-- The type `module.CheckResult`: "`reason == none` means the check passed". -/
structure CheckResult where
  reason : Option String
  deriving DecidableEq, Repr

/-- The result of a check that passed. -/
def CheckResult.pass : CheckResult := { reason := none }

/-- The result of a check that failed for the given cause. -/
def CheckResult.fail (cause : String) : CheckResult := { reason := some cause }

/-- Modelled from the spec: the helpers of package `check/dns` are not part of
the sources at hand.  "Both sides are normalized by stripping an optional
trailing dot before comparison": strip one trailing dot, on the characters of
a name. -/
def stripDot (cs : List Char) : List Char :=
  if cs.getLast? = some '.' then cs.dropLast else cs

/-- Modelled from the spec: the helpers of package `check/dns` are not part of
the sources at hand.  "Compares it case-insensitively": comparison of two
names, character by character, up to the case of ASCII letters (as
`Char.toLower` folds them). -/
def equalFold : List Char → List Char → Bool
  | [], [] => true
  | a :: as, b :: bs => (a.toLower == b.toLower) && equalFold as bs
  | _, _ => false

/-- Modelled from the spec: the helpers of package `check/dns` are not part of
the sources at hand.  The text between the brackets when a name is written in
the literal-address form, "a bracketed IP address instead of a DNS name". -/
def literalBody (cs : List Char) : Option (List Char) :=
  match cs with
  | '[' :: rest => if rest.getLast? = some ']' then some rest.dropLast else none
  | _ => none

/-- Whether a name is written in the literal-address form. -/
def isAddressLiteral (name : String) : Bool :=
  (literalBody name.data).isSome

/-- Modelled from the spec: the helpers of package `check/dns` are not part of
the sources at hand.  The address text of a literal: the body without the tag
`IPv6:` of an "`IPv6:`-prefixed IPv6" literal. -/
def addressText (body : List Char) : List Char :=
  match body with
  | 'I' :: 'P' :: 'v' :: '6' :: ':' :: rest => rest
  | _ => body

/-- Modelled from the spec: the address parser used by `requireMXRecord` is not
part of the sources at hand.  Split an address at its last `@` into local part
and domain part; `none` when there is no `@`. -/
def splitAddress : List Char → Option (List Char × List Char)
  | [] => none
  | c :: cs =>
    match splitAddress cs with
    | some (loc, dom) => some (c :: loc, dom)
    | none => if c = '@' then some ([], cs) else none

/-- Modelled from the spec: `requireMatchingRDNS` (package `check/dns`) is not
part of the sources at hand, only its test is.  "Compares it
case-insensitively, trailing-dot-normalized, against the client's declared
hostname, unless the declared hostname is itself a bracketed literal IP
address, in which case the check fails unconditionally.  If reverse-DNS
resolution yields no name, the check fails." -/
def requireMatchingRDNS (ctx : StatelessCheckContext) : CheckResult :=
  match ctx.rdnsName with
  | Lookup.failed => CheckResult.fail "reverse DNS lookup failed"
  | Lookup.notFound => CheckResult.fail "no PTR record"
  | Lookup.found rdnsName =>
    if isAddressLiteral ctx.hostname then
      CheckResult.fail "declared hostname is an address literal"
    else if equalFold (stripDot rdnsName.data) (stripDot ctx.hostname.data) then
      CheckResult.pass
    else
      CheckResult.fail "reverse DNS name does not match the declared hostname"

/-- Modelled from the spec: `requireMXRecord` (package `check/dns`) is not part
of the sources at hand, only its test is.  "A null sender always passes.  A
sender whose domain is a literal IP-address form always fails.  Otherwise
resolve MX records for the sender's domain: NXDOMAIN or zero records is a
failure; one or more MX records passes.  A malformed envelope address (no `@`,
empty local or domain part outside the null-sender case) is a failure." -/
def requireMXRecord (ctx : StatelessCheckContext) (mailFrom : String) : CheckResult :=
  if mailFrom = "" then
    CheckResult.pass
  else
    match splitAddress mailFrom.data with
    | none => CheckResult.fail "malformed address"
    | some (loc, dom) =>
      if loc = [] ∨ dom = [] then
        CheckResult.fail "malformed address"
      else if isAddressLiteral (String.mk dom) then
        CheckResult.fail "sender domain is an address literal"
      else
        match ctx.resolver.lookupMX (String.mk dom) with
        | Lookup.failed => CheckResult.fail "MX lookup failed"
        | Lookup.notFound => CheckResult.fail "sender domain does not exist"
        | Lookup.found [] => CheckResult.fail "sender domain has no MX records"
        | Lookup.found (_ :: _) => CheckResult.pass

/-- Modelled from the spec: `requireMatchingEHLO` (package `check/dns`) is not
part of the sources at hand, only its test is.  "If the declared hostname is a
bracketed IPv4 or `IPv6:`-prefixed literal, the check passes if and only if
that literal parses successfully and is byte-equal to the connection's actual
remote IP; a malformed literal is a failure.  Otherwise, resolve both A and
AAAA records for the declared hostname; if either lookup errors or both result
sets are simultaneously empty, the check fails.  The check passes if the remote
IP is a member of the address family matching the connection within the union
of returned A/AAAA records."  The parser of address texts (`net.ParseIP`) is a
parameter. -/
def requireMatchingEHLO (parseIP : String → Option IP) (ctx : StatelessCheckContext) :
    CheckResult :=
  match literalBody ctx.hostname.data with
  | some body =>
    match parseIP (String.mk (addressText body)) with
    | none => CheckResult.fail "malformed address literal"
    | some ip =>
      if ip = ctx.remoteIP then CheckResult.pass
      else CheckResult.fail "address literal is not the remote address"
  | none =>
    match ctx.resolver.lookupA ctx.hostname, ctx.resolver.lookupAAAA ctx.hostname with
    | Lookup.failed, _ => CheckResult.fail "A lookup failed"
    | _, Lookup.failed => CheckResult.fail "AAAA lookup failed"
    | a, aaaa =>
      if a.records = [] ∧ aaaa.records = [] then
        CheckResult.fail "declared hostname has no addresses"
      else if ctx.remoteIP ∈ (a.records ++ aaaa.records).filter ctx.remoteIP.sameFamily then
        CheckResult.pass
      else
        CheckResult.fail "declared hostname does not resolve to the remote address"

/-- The normal form of a name in the RDNS property: "strips one optional
trailing dot and lower-cases". -/
def normalize (name : String) : List Char :=
  (stripDot name.data).map Char.toLower

/-- The RDNS check as the property states it: a failure for a declared
hostname in the literal-address form, a failure without reverse-DNS name, and
otherwise a pass exactly when the two normal forms are equal. -/
def rdnsReference (rdnsName : Lookup String) (hostname : String) : Bool :=
  if isAddressLiteral hostname then false
  else
    match rdnsName with
    | Lookup.found r => decide (normalize r = normalize hostname)
    | Lookup.notFound => false
    | Lookup.failed => false

/-- The MX check as the property states it: a pass for the null sender, a
failure for a sender without `@` or with an empty domain part, a failure for a
domain in the literal-address form, and otherwise a pass exactly when the
domain resolves to at least one MX record. -/
def mxReference (resolver : Resolver) (mailFrom : String) : Bool :=
  if mailFrom = "" then true
  else
    match splitAddress mailFrom.data with
    | none => false
    | some (_, dom) =>
      if dom = [] then false
      else if isAddressLiteral (String.mk dom) then false
      else decide ((resolver.lookupMX (String.mk dom)).records ≠ [])

/-- The EHLO check for a declared hostname that is a DNS name, as the property
states it: a pass exactly when the remote IP is among the resolved A and AAAA
records. -/
def ehloReference (ctx : StatelessCheckContext) : Bool :=
  decide (ctx.remoteIP ∈
    (ctx.resolver.lookupA ctx.hostname).records ++
      (ctx.resolver.lookupAAAA ctx.hostname).records)

/-- A parser that knows the address texts used in `dns_test.go`. -/
def sampleParseIP (text : String) : Option IP :=
  if text = "1.2.3.4" then some (IP.v4 1 2 3 4)
  else if text = "1.2.3.5" then some (IP.v4 1 2 3 5)
  else if text = "2.3.4.5" then some (IP.v4 2 3 4 5)
  else if text = "beef::1" then some (IP.v6 [0xbeef, 0, 0, 0, 0, 0, 0, 1])
  else if text = "beef::2" then some (IP.v6 [0xbeef, 0, 0, 0, 0, 0, 0, 2])
  else none

/-- A resolver that knows the zones given to it, as `mockdns.Resolver` does: a
lookup for a name without zone ends in the not-found outcome. -/
def zoneResolver (zones : List (String × List IP × List IP × List MX)) : Resolver where
  lookupA := fun name =>
    match zones.lookup name with
    | some z => Lookup.found z.1
    | none => Lookup.notFound
  lookupAAAA := fun name =>
    match zones.lookup name with
    | some z => Lookup.found z.2.1
    | none => Lookup.notFound
  lookupMX := fun name =>
    match zones.lookup name with
    | some z => Lookup.found z.2.2
    | none => Lookup.notFound

/-- A resolver whose A lookups time out while its AAAA lookups answer for the
zones given to it. -/
def flakyResolver (zones : List (String × List IP × List IP × List MX)) : Resolver :=
  { zoneResolver zones with lookupA := fun _ => Lookup.failed }

/-- The context of the RDNS test: remote address `1.2.3.4`, no zones. -/
def rdnsTestCtx (rdns : Lookup String) (srcHost : String) : StatelessCheckContext :=
  { resolver := zoneResolver [], remoteIP := IP.v4 1 2 3 4, hostname := srcHost,
    rdnsName := rdns }

/-- The context of the MX test: one zone for `mxDomain` holding the records
`mx`, or no zone at all when `mxDomain` is empty. -/
def mxTestCtx (mxDomain : String) (mx : List MX) : StatelessCheckContext :=
  { resolver := zoneResolver (if mxDomain = "" then [] else [(mxDomain, [], [], mx)]),
    remoteIP := IP.v4 1 2 3 4, hostname := "", rdnsName := Lookup.notFound }

/-- The context of the EHLO test: a zone for `srcHost` only when both record
lists are given. -/
def ehloTestCtx (srcHost : String) (srcIP : IP) (a aaaa : Option (List IP)) :
    StatelessCheckContext :=
  { resolver := zoneResolver
      (match a, aaaa with
       | some ra, some rb => [(srcHost, ra, rb, [])]
       | _, _ => []),
    remoteIP := srcIP, hostname := srcHost, rdnsName := Lookup.notFound }

/-! ## The block loop -/

theorem blocksLoop_append (env : Env) (g : Globals) (pre post : List Node) (acc : Acc)
    (w : World) :
    blocksLoop env g (pre ++ post) acc w =
      match blocksLoop env g pre acc w with
      | (w1, Except.error err) => (w1, Except.error err)
      | (w1, Except.ok acc1) => blocksLoop env g post acc1 w1 := by
  induction pre generalizing acc w with
  | nil => simp [blocksLoop]
  | cons b bs ih =>
    simp only [List.cons_append, blocksLoop]
    rcases h : processBlock env g b acc w with ⟨w1, r⟩
    cases r with
    | error e => simp
    | ok a => simp [ih]

theorem blocksLoop_append_ok {env : Env} {g : Globals} {pre : List Node} {acc acc1 : Acc}
    {w w1 : World} (h : blocksLoop env g pre acc w = (w1, Except.ok acc1)) (post : List Node) :
    blocksLoop env g (pre ++ post) acc w = blocksLoop env g post acc1 w1 := by
  rw [blocksLoop_append, h]

theorem blocksLoop_append_error {env : Env} {g : Globals} {pre : List Node} {acc : Acc}
    {w w1 : World} {e : Err} (h : blocksLoop env g pre acc w = (w1, Except.error e))
    (post : List Node) :
    blocksLoop env g (pre ++ post) acc w = (w1, Except.error e) := by
  rw [blocksLoop_append, h]

theorem blocksLoop_cons_error {env : Env} {g : Globals} {b : Node} {acc : Acc}
    {w w1 : World} {e : Err} (h : processBlock env g b acc w = (w1, Except.error e))
    (post : List Node) :
    blocksLoop env g (b :: post) acc w = (w1, Except.error e) := by
  simp [blocksLoop, h]

theorem instancesFromConfig_blocks_error {env : Env} {g : Globals} {nodes : List Node}
    {w w1 : World} {e : Err}
    (h : blocksLoop env g nodes { endpoints := [], mods := [] } w = (w1, Except.error e)) :
    instancesFromConfig env g nodes w = { insts := [], err := some e, world := w1 } := by
  simp [instancesFromConfig, h]

theorem processBlock_unknown (env : Env) (g : Globals) (b : Node) (acc : Acc) (w : World)
    (he : env.getEndpoint b.name = none) (hm : env.get b.name = none) :
    processBlock env g b acc w = (w, Except.error (errUnknown b)) := by
  simp [processBlock, he, hm, errUnknown]

/-- What a successful iteration adds to `endpoints` and `mods`. -/
theorem processBlock_ok {env : Env} {g : Globals} {b : Node} {acc acc1 : Acc} {w w1 : World}
    (h : processBlock env g b acc w = (w1, Except.ok acc1)) :
    acc1.endpoints = acc.endpoints ++ (endpointOf env b).toList ∧
    acc1.mods = acc.mods ++ (moduleOf env b).toList ∧
    ((endpointOf env b).toList ++ (moduleOf env b).toList).length = 1 := by
  unfold endpointOf moduleOf
  cases he : env.getEndpoint b.name with
  | some f =>
    cases hi : f b.name b.args with
    | error e => simp [processBlock, he, hi] at h
    | ok inst =>
      simp only [processBlock, he, hi, Prod.mk.injEq, Except.ok.injEq] at h
      simp [← h.2, hi]
  | none =>
    cases hg : env.get b.name with
    | none => simp [processBlock, he, hg] at h
    | some f =>
      cases hi : f b.name (instNameOf b) (modAliasesOf b) [] with
      | error e =>
        simp only [processBlock, he, hg, hi] at h
        split at h <;> simp at h
      | ok inst =>
        simp only [processBlock, he, hg, hi] at h
        split at h
        · simp at h
        · split at h
          · simp at h
          · simp only [Prod.mk.injEq, Except.ok.injEq] at h
            simp [← h.2, hi]

/-- What a successful run of the block loop adds to `endpoints` and `mods`. -/
theorem blocksLoop_ok {env : Env} {g : Globals} {nodes : List Node} {acc acc1 : Acc}
    {w w1 : World} (h : blocksLoop env g nodes acc w = (w1, Except.ok acc1)) :
    acc1.endpoints = acc.endpoints ++ nodes.filterMap (endpointOf env) ∧
    acc1.mods = acc.mods ++ nodes.filterMap (moduleOf env) ∧
    (nodes.filterMap (endpointOf env)).length + (nodes.filterMap (moduleOf env)).length
      = nodes.length ∧
    (∀ b ∈ nodes, ((endpointOf env b).toList ++ (moduleOf env b).toList).length = 1) := by
  induction nodes generalizing acc w with
  | nil =>
    simp only [blocksLoop, Prod.mk.injEq, Except.ok.injEq] at h
    simp [h.2]
  | cons b bs ih =>
    simp only [blocksLoop] at h
    rcases hp : processBlock env g b acc w with ⟨w2, r⟩
    rw [hp] at h
    cases r with
    | error e => simp at h
    | ok a =>
      simp only at h
      obtain ⟨h1, h2, h3⟩ := processBlock_ok hp
      obtain ⟨i1, i2, i3, i4⟩ := ih h
      refine ⟨?_, ?_, ?_, ?_⟩
      · rw [i1, h1]
        cases he : endpointOf env b <;> simp [List.filterMap_cons, he]
      · rw [i2, h2]
        cases hm : moduleOf env b <;> simp [List.filterMap_cons, hm]
      · cases he : endpointOf env b <;> cases hm : moduleOf env b <;>
          simp [List.filterMap_cons, he, hm] at h3 ⊢ <;> omega
      · intro x hx
        rcases List.mem_cons.mp hx with rfl | hx
        · exact h3
        · exact i4 x hx

/-- A successful call went through all four phases. -/
theorem instancesFromConfig_ok {env : Env} {g : Globals} {nodes : List Node} {w : World}
    (h : (instancesFromConfig env g nodes w).err = none) :
    ∃ w1 acc w2,
      blocksLoop env g nodes { endpoints := [], mods := [] } w = (w1, Except.ok acc) ∧
      acc.endpoints ≠ [] ∧
      initLoop env g acc.endpoints w1 = (w2, none) ∧
      unusedLoop w2.reg acc.mods = none ∧
      instancesFromConfig env g nodes w =
        { insts := acc.endpoints.map modInfo.inst ++ acc.mods.map modInfo.inst,
          err := none, world := w2 } := by
  unfold instancesFromConfig at h ⊢
  rcases hb : blocksLoop env g nodes { endpoints := [], mods := [] } w with ⟨w1, r⟩
  rw [hb] at h
  cases r with
  | error e => simp at h
  | ok acc =>
    simp only at h ⊢
    by_cases h0 : acc.endpoints.length = 0
    · simp [h0] at h
    · simp only [h0, if_false] at h ⊢
      rcases hi : initLoop env g acc.endpoints w1 with ⟨w2, r2⟩
      rw [hi] at h
      cases r2 with
      | some e => simp at h
      | none =>
        simp only at h ⊢
        cases hu : unusedLoop w2.reg acc.mods with
        | some e => simp [hu] at h
        | none =>
          refine ⟨w1, acc, w2, rfl, ?_, hi, hu, ?_⟩
          · intro hnil
            exact h0 (by simp [hnil])
          · simp [hi, hu]

theorem filterMap_endpointOf_eq_nil {env : Env} {nodes : List Node}
    (h : ∀ b ∈ nodes, isEndpointBlock env b = false) :
    nodes.filterMap (endpointOf env) = [] := by
  rw [List.filterMap_eq_nil_iff]
  intro b hb
  have hb1 := h b hb
  unfold isEndpointBlock at hb1
  cases he : env.getEndpoint b.name with
  | none => simp [endpointOf, he]
  | some f => simp [he] at hb1

theorem instancesFromConfig_no_endpoints {env : Env} {g : Globals} {nodes : List Node}
    {w w1 : World} {acc : Acc}
    (h : blocksLoop env g nodes { endpoints := [], mods := [] } w = (w1, Except.ok acc))
    (h0 : acc.endpoints = []) :
    instancesFromConfig env g nodes w = { insts := [], err := some errNoEndpoint, world := w1 } := by
  simp [instancesFromConfig, h, h0, errNoEndpoint]

/-! ## C1: no endpoint block -/

/-- C1, as stated, fails: a tree whose only block has an unknown name holds no
endpoint block, yet the error is the unknown-directive error of that block and
not the missing-endpoint error. -/
theorem no_endpoint_block_other_error :
    (∀ b ∈ [blockAt 1 "bogus" []], isEndpointBlock sampleEnv b = false) ∧
    (instancesFromConfig sampleEnv [] [blockAt 1 "bogus" []] World.start).err
      = some (errUnknown (blockAt 1 "bogus" [])) ∧
    (instancesFromConfig sampleEnv [] [blockAt 1 "bogus" []] World.start).err
      ≠ some errNoEndpoint := by
  decide

/-- C1, amended: for a config tree without endpoint block, `instancesFromConfig`
returns an error and no instances; the error is the one of the first failing
block if the processing of a block fails, and the missing-endpoint error "at
least one endpoint should be configured" if every block is processed without
error. -/
theorem no_endpoint_block_fails (env : Env) (g : Globals) (nodes : List Node) (w : World)
    (h : ∀ b ∈ nodes, isEndpointBlock env b = false) :
    (instancesFromConfig env g nodes w).insts = [] ∧
    (∃ e, (instancesFromConfig env g nodes w).err = some e) ∧
    (∀ w1 acc, blocksLoop env g nodes { endpoints := [], mods := [] } w = (w1, Except.ok acc) →
      (instancesFromConfig env g nodes w).err = some errNoEndpoint) ∧
    (∀ w1 e, blocksLoop env g nodes { endpoints := [], mods := [] } w = (w1, Except.error e) →
      (instancesFromConfig env g nodes w).err = some e) := by
  rcases hb : blocksLoop env g nodes { endpoints := [], mods := [] } w with ⟨w1, r⟩
  cases r with
  | error e =>
    rw [instancesFromConfig_blocks_error hb]
    simp
  | ok acc =>
    have h0 : acc.endpoints = [] := by
      rw [(blocksLoop_ok hb).1, filterMap_endpointOf_eq_nil h]
      rfl
    rw [instancesFromConfig_no_endpoints hb h0]
    simp

/-- C1, amended, at a tree holding one `sql` block only. -/
theorem no_endpoint_block_fails_witness :
    (∀ b ∈ [blockAt 1 "sql" ["db"]], isEndpointBlock sampleEnv b = false) ∧
    (instancesFromConfig sampleEnv [] [blockAt 1 "sql" ["db"]] World.start).insts = [] ∧
    (instancesFromConfig sampleEnv [] [blockAt 1 "sql" ["db"]] World.start).err
      = some errNoEndpoint :=
  have h : ∀ b ∈ [blockAt 1 "sql" ["db"]], isEndpointBlock sampleEnv b = false := by decide
  have t := no_endpoint_block_fails sampleEnv [] [blockAt 1 "sql" ["db"]] World.start h
  ⟨h, t.1, by decide⟩

/-! ## C5: unknown block name -/

/-- C5: a config tree holding a top-level block whose name is neither a
registered endpoint type nor a registered module type makes
`instancesFromConfig` fail; when every block before that block is processed
without error, the failure is the unknown-directive error at the block's
source location, and nothing after the block is looked at. -/
theorem unknown_block_fails (env : Env) (g : Globals) (pre post : List Node) (b : Node)
    (w : World) (he : env.getEndpoint b.name = none) (hm : env.get b.name = none) :
    (instancesFromConfig env g (pre ++ b :: post) w).insts = [] ∧
    (∃ e, (instancesFromConfig env g (pre ++ b :: post) w).err = some e) ∧
    (∀ w1 acc, blocksLoop env g pre { endpoints := [], mods := [] } w = (w1, Except.ok acc) →
      instancesFromConfig env g (pre ++ b :: post) w =
        { insts := [],
          err := some (Err.nodeErr b.file b.line "unknown module or global directive: %s"
            [FmtArg.str b.name]),
          world := w1 }) := by
  rcases hb : blocksLoop env g pre { endpoints := [], mods := [] } w with ⟨w1, r⟩
  cases r with
  | error e =>
    rw [instancesFromConfig_blocks_error (blocksLoop_append_error hb _)]
    simp
  | ok acc =>
    have hx : blocksLoop env g (pre ++ b :: post) { endpoints := [], mods := [] } w
        = (w1, Except.error (errUnknown b)) := by
      rw [blocksLoop_append_ok hb]
      exact blocksLoop_cons_error (processBlock_unknown env g b acc w1 he hm) post
    rw [instancesFromConfig_blocks_error hx]
    simp [errUnknown, NodeErr]

/-- C5 at a tree whose second block has the unknown name `bogus`. -/
theorem unknown_block_fails_witness :
    sampleEnv.getEndpoint (blockAt 2 "bogus" ["x"]).name = none ∧
    sampleEnv.get (blockAt 2 "bogus" ["x"]).name = none ∧
    (instancesFromConfig sampleEnv []
        ([blockAt 1 "sql" ["db"]] ++ blockAt 2 "bogus" ["x"] :: [blockAt 3 "smtp" []])
        World.start).err
      = some (Err.nodeErr "maddy.conf" 2 "unknown module or global directive: %s"
          [FmtArg.str "bogus"]) := by
  have t := unknown_block_fails sampleEnv [] [blockAt 1 "sql" ["db"]] [blockAt 3 "smtp" []]
    (blockAt 2 "bogus" ["x"]) World.start rfl rfl
  obtain ⟨_, _, t3⟩ := t
  refine ⟨rfl, rfl, ?_⟩
  rw [t3 _ _ rfl]
  rfl

/-! ## C6: one endpoint block -/

/-- C6: for a config tree that is exactly one endpoint block, whose endpoint
factory and whose `Init` do not fail, `instancesFromConfig` succeeds and
returns exactly the one instance the endpoint factory produced. -/
theorem single_endpoint_succeeds (env : Env) (g : Globals) (b : Node) (w : World)
    (endpFactory : String → List String → Except Err Module) (inst : Module) (reg : Registry)
    (hf : env.getEndpoint b.name = some endpFactory)
    (hi : endpFactory b.name b.args = Except.ok inst)
    (hinit : env.init inst (NewMap g b) w.reg = (reg, none)) :
    (instancesFromConfig env g [b] w).err = none ∧
    (instancesFromConfig env g [b] w).insts = [inst] := by
  simp [instancesFromConfig, blocksLoop, processBlock, hf, hi, initLoop, World.emit, hinit,
    unusedLoop]

/-- C6 at the tree holding one `smtp` block. -/
theorem single_endpoint_succeeds_witness :
    (instancesFromConfig sampleEnv [] [blockAt 1 "smtp" ["mx"]] World.start).err = none ∧
    (instancesFromConfig sampleEnv [] [blockAt 1 "smtp" ["mx"]] World.start).insts
      = [{ name := "smtp", instanceName := "mx", closer := true, addr := 1 }] :=
  single_endpoint_succeeds sampleEnv [] (blockAt 1 "smtp" ["mx"]) World.start
    smtpFactory
    { name := "smtp", instanceName := "mx", closer := true, addr := 1 }
    { instances := [], aliases := [], initialized := [] } rfl rfl rfl

/-! ## C7: the returned list -/

/-- C7: whenever `instancesFromConfig` succeeds, the returned list is the
instances of the endpoint blocks in config-tree order followed by the
instances of the module blocks in config-tree order; its length is the number
of top-level blocks, and each block contributes exactly one instance (as an
endpoint or as a module). -/
theorem success_returns_endpoints_then_modules (env : Env) (g : Globals) (nodes : List Node)
    (w : World) (h : (instancesFromConfig env g nodes w).err = none) :
    (instancesFromConfig env g nodes w).insts =
      (nodes.filterMap (endpointOf env)).map modInfo.inst ++
        (nodes.filterMap (moduleOf env)).map modInfo.inst ∧
    (instancesFromConfig env g nodes w).insts.length = nodes.length ∧
    (∀ b ∈ nodes, ((endpointOf env b).toList ++ (moduleOf env b).toList).length = 1) := by
  obtain ⟨w1, acc, w2, hb, _, _, _, hout⟩ := instancesFromConfig_ok h
  obtain ⟨h1, h2, h3, h4⟩ := blocksLoop_ok hb
  simp only [List.nil_append] at h1 h2
  rw [hout]
  refine ⟨by simp [h1, h2], ?_, h4⟩
  simp only [List.length_append, List.length_map, h1, h2]
  exact h3

/-- C7 at a tree of module, endpoint, module, endpoint. -/
theorem success_returns_endpoints_then_modules_witness :
    (instancesFromConfig sampleEnv []
      [blockAt 1 "sql" ["db"],
       blockWith 2 "smtp" ["mx"] [("auth", ["db"])],
       blockAt 4 "sql" ["users", "accounts"],
       blockWith 5 "smtp" ["submission"] [("auth", ["users"])]] World.start).err = none ∧
    (instancesFromConfig sampleEnv []
      [blockAt 1 "sql" ["db"],
       blockWith 2 "smtp" ["mx"] [("auth", ["db"])],
       blockAt 4 "sql" ["users", "accounts"],
       blockWith 5 "smtp" ["submission"] [("auth", ["users"])]] World.start).insts
      = [{ name := "smtp", instanceName := "mx", closer := true, addr := 1 },
         { name := "smtp", instanceName := "submission", closer := true, addr := 1 },
         { name := "sql", instanceName := "db", closer := false, addr := 100 },
         { name := "sql", instanceName := "users", closer := false, addr := 101 }] := by
  have h : (instancesFromConfig sampleEnv []
      [blockAt 1 "sql" ["db"],
       blockWith 2 "smtp" ["mx"] [("auth", ["db"])],
       blockAt 4 "sql" ["users", "accounts"],
       blockWith 5 "smtp" ["submission"] [("auth", ["users"])]] World.start).err = none := by
    decide
  refine ⟨h, ?_⟩
  rw [(success_returns_endpoints_then_modules sampleEnv [] _ World.start h).1]
  decide

/-! ## The registry during the block loop -/

theorem hasInstance_iff (reg : Registry) (n : String) :
    HasInstance reg n = true ↔ n ∈ taken reg := by
  simp [HasInstance, taken]

theorem mem_taken_registerAlias (a n : String) (reg : Registry) (x : String) :
    x ∈ taken (RegisterAlias a n reg) ↔ x = a ∨ x ∈ taken reg := by
  simp only [taken, RegisterAlias, List.map_cons, List.mem_append, List.mem_cons]
  tauto

theorem mem_taken_registerInstance (inst : Module) (cfg : ConfigMap) (reg : Registry)
    (x : String) :
    x ∈ taken (RegisterInstance inst cfg reg) ↔ x = inst.instanceName ∨ x ∈ taken reg := by
  simp only [taken, RegisterInstance, List.map_cons, List.mem_append, List.mem_cons]
  tauto

/-- A run of the alias loop without error: the aliases were free and pairwise
distinct, and they are what has been added to the taken names. -/
theorem aliasLoop_ok {b : Node} {n : String} {as : List String} {w w1 : World}
    (h : aliasLoop b n as w = (w1, none)) :
    as.Nodup ∧ (∀ a ∈ as, a ∉ taken w.reg) ∧
    (∀ x, x ∈ taken w1.reg ↔ x ∈ taken w.reg ∨ x ∈ as) ∧
    w1.reg.initialized = w.reg.initialized := by
  induction as generalizing w with
  | nil =>
    simp only [aliasLoop, Prod.mk.injEq, and_true] at h
    subst h
    simp
  | cons a rest ih =>
    simp only [aliasLoop] at h
    split at h
    · simp at h
    · rename_i hfree
      have hfree1 : a ∉ taken w.reg := by
        intro hin
        exact hfree ((hasInstance_iff _ _).mpr hin)
      obtain ⟨i1, i2, i3, i4⟩ := ih h
      simp only [World.emit, mem_taken_registerAlias] at i2 i3
      refine ⟨?_, ?_, ?_, ?_⟩
      · rw [List.nodup_cons]
        refine ⟨?_, i1⟩
        intro hin
        exact i2 a hin (Or.inl rfl)
      · intro x hx
        rcases List.mem_cons.mp hx with rfl | hx
        · exact hfree1
        · intro hin
          exact i2 x hx (Or.inr hin)
      · intro x
        rw [i3 x, List.mem_cons]
        tauto
      · rw [i4]
        rfl

/-- The alias loop fails at the first alias that is taken or repeats an
earlier alias of the same block, with the duplicate-name error of that alias. -/
theorem aliasLoop_collision (b : Node) (n : String) (as1 : List String) (x : String)
    (as2 : List String) (w : World) (hnd : as1.Nodup) (hfree : ∀ a ∈ as1, a ∉ taken w.reg)
    (hx : x ∈ taken w.reg ∨ x ∈ as1) :
    ∃ w1, aliasLoop b n (as1 ++ x :: as2) w = (w1, some (errDuplicate b x)) := by
  induction as1 generalizing w with
  | nil =>
    have hx1 : x ∈ taken w.reg := by simpa using hx
    refine ⟨w.emit (Event.hasInstance x), ?_⟩
    have : HasInstance (w.emit (Event.hasInstance x)).reg x = true :=
      (hasInstance_iff _ _).mpr hx1
    simp [aliasLoop, this, errDuplicate]
  | cons a rest ih =>
    have ha : ¬ HasInstance (w.emit (Event.hasInstance a)).reg a = true := by
      intro hh
      exact hfree a (List.mem_cons_self _ _) ((hasInstance_iff _ _).mp hh)
    simp only [List.cons_append, aliasLoop, ha, if_false]
    apply ih
    · exact (List.nodup_cons.mp hnd).2
    · intro c hc hin
      simp only [World.emit, mem_taken_registerAlias] at hin
      rcases hin with rfl | hin
      · exact (List.nodup_cons.mp hnd).1 hc
      · exact hfree c (List.mem_cons_of_mem _ hc) hin
    · simp only [World.emit, mem_taken_registerAlias, List.mem_cons] at hx ⊢
      tauto

/-- An iteration for an endpoint block does not touch the registry. -/
theorem processBlock_endpoint_reg {env : Env} {g : Globals} {b : Node} {acc : Acc}
    {w w1 : World} {r : Except Err Acc} (he : isEndpointBlock env b = true)
    (h : processBlock env g b acc w = (w1, r)) : w1.reg = w.reg := by
  unfold isEndpointBlock at he
  cases hf : env.getEndpoint b.name with
  | none => simp [hf] at he
  | some f =>
    cases hi : f b.name b.args with
    | error e =>
      simp only [processBlock, hf, hi, Prod.mk.injEq] at h
      rw [← h.1]
      rfl
    | ok inst =>
      simp only [processBlock, hf, hi, Prod.mk.injEq] at h
      rw [← h.1]
      rfl

theorem moduleOf_endpoint {env : Env} {b : Node} (he : isEndpointBlock env b = true) :
    moduleOf env b = none := by
  unfold isEndpointBlock at he
  cases hf : env.getEndpoint b.name with
  | none => simp [hf] at he
  | some f => simp [moduleOf, hf]

/-- A successful iteration for a block that is not an endpoint block: the
factory made an instance, the instance name and the aliases were free, and
the names of the new entry are what has been added to the taken names. -/
theorem processBlock_module_ok {env : Env} {g : Globals} {b : Node} {acc acc1 : Acc}
    {w w1 : World} (he : isEndpointBlock env b = false)
    (h : processBlock env g b acc w = (w1, Except.ok acc1)) :
    ∃ m, moduleOf env b = some m ∧ m.cfg = b ∧ instNameOf b ∉ taken w.reg ∧
      (modAliasesOf b).Nodup ∧
      (∀ a ∈ modAliasesOf b, a ∉ taken w.reg ∧ a ≠ m.inst.instanceName) ∧
      (∀ x, x ∈ taken w1.reg ↔ x ∈ taken w.reg ∨ x ∈ namesOf m) := by
  unfold isEndpointBlock at he
  cases hf : env.getEndpoint b.name with
  | some f => simp [hf] at he
  | none =>
    cases hg : env.get b.name with
    | none => simp [processBlock, hf, hg] at h
    | some f =>
      cases hi : f b.name (instNameOf b) (modAliasesOf b) [] with
      | error e =>
        simp only [processBlock, hf, hg, hi] at h
        split at h <;> simp at h
      | ok inst =>
        simp only [processBlock, hf, hg, hi] at h
        split at h
        · simp at h
        · rename_i hfree
          split at h
          · simp at h
          · rename_i w4 hal
            simp only [Prod.mk.injEq, Except.ok.injEq] at h
            obtain ⟨a1, a2, a3, _⟩ := aliasLoop_ok hal
            simp only [World.emit, mem_taken_registerInstance] at a2 a3
            refine ⟨{ inst := inst, cfg := b }, by simp [moduleOf, hf, hg, hi], rfl, ?_, a1,
              ?_, ?_⟩
            · intro hin
              exact hfree ((hasInstance_iff _ _).mpr hin)
            · intro a ha
              have := a2 a ha
              constructor
              · intro hin
                exact this (Or.inr hin)
              · intro heq
                exact this (Or.inl heq)
            · intro x
              rw [← h.1, a3 x]
              simp only [namesOf, List.mem_cons]
              tauto

/-- After a successful run of the block loop, the taken names are the ones
taken before and the names registered by the module blocks. -/
theorem blocksLoop_taken {env : Env} {g : Globals} {nodes : List Node} {acc acc1 : Acc}
    {w w1 : World} (h : blocksLoop env g nodes acc w = (w1, Except.ok acc1)) :
    ∀ x, x ∈ taken w1.reg ↔ x ∈ taken w.reg ∨ x ∈ registeredNames env nodes := by
  induction nodes generalizing acc w with
  | nil =>
    simp only [blocksLoop, Prod.mk.injEq] at h
    simp [registeredNames, h.1]
  | cons b bs ih =>
    simp only [blocksLoop] at h
    rcases hp : processBlock env g b acc w with ⟨w2, r⟩
    rw [hp] at h
    cases r with
    | error e => simp at h
    | ok a =>
      simp only at h
      intro x
      rw [ih h x]
      cases he : isEndpointBlock env b with
      | true =>
        rw [processBlock_endpoint_reg he hp]
        simp [registeredNames, List.filterMap_cons, moduleOf_endpoint he]
      | false =>
        obtain ⟨m, hm, _, _, _, _, ht⟩ := processBlock_module_ok he hp
        rw [ht x]
        simp only [registeredNames, List.filterMap_cons, hm, List.flatMap_cons, List.mem_append]
        tauto

/-- When the module factories name their instances as asked, a successful run
of the block loop has registered exactly the declared names, and these were
free before and are pairwise distinct. -/
theorem blocksLoop_names {env : Env} {g : Globals} {nodes : List Node} {acc acc1 : Acc}
    {w w1 : World} (h : blocksLoop env g nodes acc w = (w1, Except.ok acc1))
    (hn : ∀ b ∈ nodes, NamesAsAsked env b) :
    registeredNames env nodes = declaredNames env nodes ∧
    (declaredNames env nodes).Nodup ∧
    (∀ x ∈ declaredNames env nodes, x ∉ taken w.reg) := by
  induction nodes generalizing acc w with
  | nil => simp [registeredNames, declaredNames]
  | cons b bs ih =>
    simp only [blocksLoop] at h
    rcases hp : processBlock env g b acc w with ⟨w2, r⟩
    rw [hp] at h
    cases r with
    | error e => simp at h
    | ok a =>
      simp only at h
      obtain ⟨i1, i2, i3⟩ := ih h (fun x hx => hn x (List.mem_cons_of_mem _ hx))
      cases he : isEndpointBlock env b with
      | true =>
        have hreg := processBlock_endpoint_reg he hp
        rw [hreg] at i3
        have e1 : registeredNames env (b :: bs) = registeredNames env bs := by
          simp [registeredNames, List.filterMap_cons, moduleOf_endpoint he]
        have e2 : declaredNames env (b :: bs) = declaredNames env bs := by
          simp [declaredNames, List.filter_cons, he]
        rw [e1, e2]
        exact ⟨i1, i2, i3⟩
      | false =>
        obtain ⟨m, hm, hcfg, hfree, hnd, hal, ht⟩ := processBlock_module_ok he hp
        have hname : m.inst.instanceName = instNameOf b := hn b (List.mem_cons_self _ _) m hm
        have e0 : namesOf m = instNameOf b :: modAliasesOf b := by
          simp [namesOf, hname, hcfg]
        have e1 : registeredNames env (b :: bs) = namesOf m ++ registeredNames env bs := by
          simp [registeredNames, List.filterMap_cons, hm]
        have e2 : declaredNames env (b :: bs)
            = (instNameOf b :: modAliasesOf b) ++ declaredNames env bs := by
          simp [declaredNames, List.filter_cons, he]
        rw [e1, e2, i1, e0]
        refine ⟨rfl, ?_, ?_⟩
        · rw [List.nodup_append]
          refine ⟨?_, i2, ?_⟩
          · rw [List.nodup_cons]
            refine ⟨?_, hnd⟩
            intro hin
            exact (hal _ hin).2 hname.symm
          · intro x hx hx2
            apply i3 x hx2
            rw [ht x, e0]
            exact Or.inr hx
        · intro x hx
          rcases List.mem_append.mp hx with hx | hx
          · rcases List.mem_cons.mp hx with rfl | hx
            · exact hfree
            · exact (hal x hx).1
          · intro hin
            apply i3 x hx
            rw [ht x]
            exact Or.inl hin

/-! ## Failing iterations -/

theorem processBlock_endpoint_error {env : Env} {g : Globals} {b : Node} {acc : Acc} {w : World}
    {endpFactory : String → List String → Except Err Module} {e : Err}
    (hf : env.getEndpoint b.name = some endpFactory)
    (hi : endpFactory b.name b.args = Except.error e) :
    processBlock env g b acc w
      = (w.emit (Event.endpFactory b.name b.args), Except.error e) := by
  simp [processBlock, hf, hi]

theorem processBlock_duplicate_name {env : Env} {g : Globals} {b : Node} {acc : Acc} {w : World}
    {factory : String → String → List String → List String → Except Err Module}
    (hf : env.getEndpoint b.name = none) (hg : env.get b.name = some factory)
    (hin : instNameOf b ∈ taken w.reg) :
    processBlock env g b acc w
      = (w.emit (Event.hasInstance (instNameOf b)),
         Except.error (errDuplicate b (instNameOf b))) := by
  have : HasInstance (w.emit (Event.hasInstance (instNameOf b))).reg (instNameOf b) = true :=
    (hasInstance_iff _ _).mpr hin
  simp [processBlock, hf, hg, this, errDuplicate]

theorem processBlock_factory_error {env : Env} {g : Globals} {b : Node} {acc : Acc} {w : World}
    {factory : String → String → List String → List String → Except Err Module} {e : Err}
    (hf : env.getEndpoint b.name = none) (hg : env.get b.name = some factory)
    (hfree : instNameOf b ∉ taken w.reg)
    (hi : factory b.name (instNameOf b) (modAliasesOf b) [] = Except.error e) :
    processBlock env g b acc w
      = ((w.emit (Event.hasInstance (instNameOf b))).emit
           (Event.factory b.name (instNameOf b) (modAliasesOf b)),
         Except.error e) := by
  have : ¬ HasInstance (w.emit (Event.hasInstance (instNameOf b))).reg (instNameOf b) = true :=
    fun hh => hfree ((hasInstance_iff _ _).mp hh)
  simp [processBlock, hf, hg, this, hi]

theorem processBlock_duplicate_alias {env : Env} (g : Globals) {b : Node} (acc : Acc) {w : World}
    {factory : String → String → List String → List String → Except Err Module}
    {inst : Module} {as1 as2 : List String} {x : String}
    (hf : env.getEndpoint b.name = none) (hg : env.get b.name = some factory)
    (hfree : instNameOf b ∉ taken w.reg)
    (hi : factory b.name (instNameOf b) (modAliasesOf b) [] = Except.ok inst)
    (has : modAliasesOf b = as1 ++ x :: as2) (hnd : as1.Nodup)
    (hfree1 : ∀ a ∈ as1, a ∉ taken w.reg ∧ a ≠ inst.instanceName)
    (hx : x ∈ taken w.reg ∨ x = inst.instanceName ∨ x ∈ as1) :
    ∃ w1, processBlock env g b acc w = (w1, Except.error (errDuplicate b x)) := by
  have h0 : ¬ HasInstance (w.emit (Event.hasInstance (instNameOf b))).reg (instNameOf b) = true :=
    fun hh => hfree ((hasInstance_iff _ _).mp hh)
  have hcol : ∀ (as : List String) (w3 : World), as = as1 ++ x :: as2 →
      (∀ y, y ∈ taken w3.reg ↔ y = inst.instanceName ∨ y ∈ taken w.reg) →
      ∃ w1, aliasLoop b (instNameOf b) as w3 = (w1, some (errDuplicate b x)) := by
    intro as w3 e1 e2
    subst e1
    apply aliasLoop_collision b (instNameOf b) as1 x as2 w3 hnd
    · intro a ha hin
      rcases (e2 a).mp hin with hin | hin
      · exact (hfree1 a ha).2 hin
      · exact (hfree1 a ha).1 hin
    · rw [e2 x]
      tauto
  simp only [processBlock, hf, hg, h0, hi, if_false]
  generalize hW : World.emit _ (Event.registerInstance inst (NewMap g b)) = w3
  have hreg : ∀ y, y ∈ taken w3.reg ↔ y = inst.instanceName ∨ y ∈ taken w.reg := by
    subst hW
    intro y
    simp only [World.emit, mem_taken_registerInstance]
  obtain ⟨w1, hw1⟩ := hcol (modAliasesOf b) w3 has hreg
  exact ⟨w1, by rw [hw1]; simp⟩

/-- An error is never accompanied by instances. -/
theorem instancesFromConfig_err_insts (env : Env) (g : Globals) (nodes : List Node) (w : World)
    (e : Err) (h : (instancesFromConfig env g nodes w).err = some e) :
    (instancesFromConfig env g nodes w).insts = [] := by
  unfold instancesFromConfig at h ⊢
  repeat' split
  all_goals simp_all

/-- The result when the blocks `pre` are processed without error and the next
block fails. -/
theorem instancesFromConfig_block_error {env : Env} {g : Globals} {pre : List Node} {b : Node}
    {w w1 w2 : World} {acc : Acc} {e : Err}
    (hpre : blocksLoop env g pre { endpoints := [], mods := [] } w = (w1, Except.ok acc))
    (hb : processBlock env g b acc w1 = (w2, Except.error e)) (post : List Node) :
    instancesFromConfig env g (pre ++ b :: post) w = { insts := [], err := some e, world := w2 } := by
  apply instancesFromConfig_blocks_error
  rw [blocksLoop_append_ok hpre]
  exact blocksLoop_cons_error hb post

/-! ## C3: duplicate names -/

/-- C3, as stated, fails: the second block is a module block whose alias `x` is
the instance name registered by the first block, and no earlier block failed;
yet the error is the bare error of the block's own factory, which is called
before any alias is looked at. -/
theorem duplicate_alias_hidden_by_factory_error :
    isModuleBlock sampleEnv (blockAt 2 "sql" ["broken", "x"]) = true ∧
    "x" ∈ modAliasesOf (blockAt 2 "sql" ["broken", "x"]) ∧
    "x" ∈ registeredNames sampleEnv [blockAt 1 "sql" ["x"]] ∧
    (blocksLoop sampleEnv [] [blockAt 1 "sql" ["x"]] { endpoints := [], mods := [] }
      World.start).2.toBool = true ∧
    (instancesFromConfig sampleEnv []
      [blockAt 1 "sql" ["x"], blockAt 2 "sql" ["broken", "x"], blockAt 3 "smtp" []]
      World.start).err = some (Err.plugin "sql: cannot open database") ∧
    (instancesFromConfig sampleEnv []
      [blockAt 1 "sql" ["x"], blockAt 2 "sql" ["broken", "x"], blockAt 3 "smtp" []]
      World.start).err ≠ some (errDuplicate (blockAt 2 "sql" ["broken", "x"]) "x") := by
  decide

/-- C3, amended: let the blocks before a module block `b` be processed without
error, so that the names taken are those taken at the start and those
registered by the earlier module blocks.  If the instance name of `b` is
taken, `instancesFromConfig` fails with the duplicate-name error "config block
named X already exists" for the instance name.  If it is free, the factory
call of `b` succeeds, and `x` is the first alias of `b` that is taken, equals
the instance name of the new instance or repeats an earlier alias of `b`, then
`instancesFromConfig` fails with the duplicate-name error for `x`. -/
theorem duplicate_name_fails (env : Env) (g : Globals) (pre post : List Node) (b : Node)
    (w w1 : World) (acc : Acc)
    (factory : String → String → List String → List String → Except Err Module)
    (hpre : blocksLoop env g pre { endpoints := [], mods := [] } w = (w1, Except.ok acc))
    (hf : env.getEndpoint b.name = none) (hg : env.get b.name = some factory) :
    (instNameOf b ∈ taken w.reg ++ registeredNames env pre →
      (instancesFromConfig env g (pre ++ b :: post) w).insts = [] ∧
      (instancesFromConfig env g (pre ++ b :: post) w).err
        = some (Err.nodeErr b.file b.line "config block named %s already exists"
            [FmtArg.str (instNameOf b)])) ∧
    (∀ (inst : Module) (as1 as2 : List String) (x : String),
      instNameOf b ∉ taken w.reg ++ registeredNames env pre →
      factory b.name (instNameOf b) (modAliasesOf b) [] = Except.ok inst →
      modAliasesOf b = as1 ++ x :: as2 →
      as1.Nodup →
      (∀ a ∈ as1, a ∉ taken w.reg ++ registeredNames env pre ∧ a ≠ inst.instanceName) →
      (x ∈ taken w.reg ++ registeredNames env pre ∨ x = inst.instanceName ∨ x ∈ as1) →
      (instancesFromConfig env g (pre ++ b :: post) w).insts = [] ∧
      (instancesFromConfig env g (pre ++ b :: post) w).err
        = some (Err.nodeErr b.file b.line "config block named %s already exists"
            [FmtArg.str x])) := by
  have ht : ∀ x, x ∈ taken w.reg ++ registeredNames env pre ↔ x ∈ taken w1.reg := by
    intro x
    rw [blocksLoop_taken hpre x, List.mem_append]
  constructor
  · intro hin
    rw [instancesFromConfig_block_error hpre
      (processBlock_duplicate_name hf hg ((ht _).mp hin)) post]
    simp [errDuplicate, NodeErr]
  · intro inst as1 as2 x hfree hi has hnd hfree1 hx
    obtain ⟨w2, hw2⟩ := processBlock_duplicate_alias g acc hf hg
      (fun hin => hfree ((ht _).mpr hin)) hi has hnd
      (fun a ha => ⟨fun hin => (hfree1 a ha).1 ((ht _).mpr hin), (hfree1 a ha).2⟩)
      (by
        rcases hx with hx | hx | hx
        · exact Or.inl ((ht _).mp hx)
        · exact Or.inr (Or.inl hx)
        · exact Or.inr (Or.inr hx))
    rw [instancesFromConfig_block_error hpre hw2 post]
    simp [errDuplicate, NodeErr]

/-- C3, amended, at a tree whose second `sql` block takes as alias the
instance name `x` of the first. -/
theorem duplicate_name_fails_witness :
    sampleEnv.getEndpoint (blockAt 2 "sql" ["y", "x"]).name = none ∧
    sampleEnv.get (blockAt 2 "sql" ["y", "x"]).name = some sqlFactory ∧
    "x" ∈ registeredNames sampleEnv [blockAt 1 "sql" ["x"]] ∧
    (instancesFromConfig sampleEnv []
      ([blockAt 1 "sql" ["x"]] ++ blockAt 2 "sql" ["y", "x"] :: [blockAt 3 "smtp" []])
      World.start).err
      = some (Err.nodeErr "maddy.conf" 2 "config block named %s already exists"
          [FmtArg.str "x"]) :=
  ⟨rfl, rfl, by decide,
    ((duplicate_name_fails sampleEnv [] [blockAt 1 "sql" ["x"]] [blockAt 3 "smtp" []]
      (blockAt 2 "sql" ["y", "x"]) World.start
      (blocksLoop sampleEnv [] [blockAt 1 "sql" ["x"]] { endpoints := [], mods := [] }
        World.start).1
      { endpoints := [],
        mods := [{ inst := { name := "sql", instanceName := "x", closer := false, addr := 100 },
                   cfg := blockAt 1 "sql" ["x"] }] }
      sqlFactory rfl rfl rfl).2
      { name := "sql", instanceName := "y", closer := false, addr := 101 } [] [] "x"
      (by decide) rfl rfl List.nodup_nil (by decide) (Or.inl (by decide))).2⟩

/-! ## C4: one namespace for the names of module blocks -/

/-- C4, as stated, fails: a module block and an endpoint block that produce
the same instance name `mx` are both accepted, and the returned instances do
not have pairwise distinct instance names. -/
theorem endpoint_name_not_checked :
    instNameOf (blockAt 1 "sql" ["mx"])
      = instNameOf (blockWith 2 "smtp" ["mx"] [("auth", ["mx"])]) ∧
    (instancesFromConfig sampleEnv []
      [blockAt 1 "sql" ["mx"], blockWith 2 "smtp" ["mx"] [("auth", ["mx"])]]
      World.start).err = none ∧
    (instancesFromConfig sampleEnv []
      [blockAt 1 "sql" ["mx"], blockWith 2 "smtp" ["mx"] [("auth", ["mx"])]]
      World.start).insts
      = [{ name := "smtp", instanceName := "mx", closer := true, addr := 1 },
         { name := "sql", instanceName := "mx", closer := false, addr := 100 }] ∧
    ¬ ((instancesFromConfig sampleEnv []
      [blockAt 1 "sql" ["mx"], blockWith 2 "smtp" ["mx"] [("auth", ["mx"])]]
      World.start).insts.map Module.instanceName).Nodup := by
  decide

/-- C4, amended: the instance names and aliases of the blocks that are not
endpoint blocks form one flat uniqueness namespace.  Let every module factory
return an instance that reports the instance name it was asked to take.  If
two such blocks declare the same name (as instance name or as alias),
`instancesFromConfig` fails.  Whenever it succeeds, the declared names are
exactly the registered names, that is the instance names of the returned
module instances together with their aliases, and they are pairwise distinct
and were free at the start. -/
theorem module_names_distinct (env : Env) (g : Globals) (nodes : List Node) (w : World)
    (hn : ∀ b ∈ nodes, NamesAsAsked env b) :
    (¬ (declaredNames env nodes).Nodup →
      (instancesFromConfig env g nodes w).insts = [] ∧
      ∃ e, (instancesFromConfig env g nodes w).err = some e) ∧
    ((instancesFromConfig env g nodes w).err = none →
      registeredNames env nodes = declaredNames env nodes ∧
      (registeredNames env nodes).Nodup ∧
      ∀ x ∈ registeredNames env nodes, x ∉ taken w.reg) := by
  have key : (instancesFromConfig env g nodes w).err = none →
      registeredNames env nodes = declaredNames env nodes ∧
      (declaredNames env nodes).Nodup ∧
      ∀ x ∈ declaredNames env nodes, x ∉ taken w.reg := by
    intro h
    obtain ⟨w1, acc, w2, hb, _, _, _, _⟩ := instancesFromConfig_ok h
    exact blocksLoop_names hb hn
  constructor
  · intro hdup
    cases he : (instancesFromConfig env g nodes w).err with
    | none => exact absurd (key he).2.1 hdup
    | some e => exact ⟨instancesFromConfig_err_insts env g nodes w e he, e, rfl⟩
  · intro h
    obtain ⟨k1, k2, k3⟩ := key h
    rw [k1]
    exact ⟨rfl, k2, k3⟩

theorem sampleEnv_namesAsAsked (b : Node) : NamesAsAsked sampleEnv b := by
  intro m hm
  simp only [moduleOf, sampleEnv] at hm
  by_cases h1 : b.name = "smtp"
  · simp [h1] at hm
  · by_cases h2 : b.name = "sql"
    · by_cases h3 : instNameOf b = "broken"
      · simp [h2, h3, sqlFactory] at hm
      · simp [h2, h3, sqlFactory] at hm
        rw [← hm]
    · simp [h1, h2] at hm

/-- C4, amended, at a tree whose two `sql` blocks both declare the name `db`. -/
theorem module_names_distinct_witness :
    (∀ b ∈ [blockAt 1 "sql" ["db"], blockAt 2 "sql" ["users", "db"],
         blockWith 3 "smtp" [] [("auth", ["db", "users"])]], NamesAsAsked sampleEnv b) ∧
    ¬ (declaredNames sampleEnv
        [blockAt 1 "sql" ["db"], blockAt 2 "sql" ["users", "db"],
         blockWith 3 "smtp" [] [("auth", ["db", "users"])]]).Nodup ∧
    (instancesFromConfig sampleEnv []
        [blockAt 1 "sql" ["db"], blockAt 2 "sql" ["users", "db"],
         blockWith 3 "smtp" [] [("auth", ["db", "users"])]] World.start).insts = [] ∧
    ∃ e, (instancesFromConfig sampleEnv []
        [blockAt 1 "sql" ["db"], blockAt 2 "sql" ["users", "db"],
         blockWith 3 "smtp" [] [("auth", ["db", "users"])]] World.start).err = some e :=
  have hd : ¬ (declaredNames sampleEnv
        [blockAt 1 "sql" ["db"], blockAt 2 "sql" ["users", "db"],
         blockWith 3 "smtp" [] [("auth", ["db", "users"])]]).Nodup := by decide
  ⟨fun b _ => sampleEnv_namesAsAsked b, hd, (module_names_distinct sampleEnv []
      [blockAt 1 "sql" ["db"], blockAt 2 "sql" ["users", "db"],
       blockWith 3 "smtp" [] [("auth", ["db", "users"])]] World.start
      (fun b _ => sampleEnv_namesAsAsked b)).1 hd⟩

/-! ## The `Init` loop and the scan for unused blocks -/

theorem initLoop_append (env : Env) (g : Globals) (pre post : List modInfo) (w : World) :
    initLoop env g (pre ++ post) w =
      match initLoop env g pre w with
      | (w1, some err) => (w1, some err)
      | (w1, none) => initLoop env g post w1 := by
  induction pre generalizing w with
  | nil => simp [initLoop]
  | cons ep rest ih =>
    simp only [List.cons_append, initLoop]
    rcases hi : env.init ep.inst (NewMap g ep.cfg) (w.emit (Event.init ep.inst (NewMap g ep.cfg))).reg
      with ⟨reg, r⟩
    cases r with
    | some e => simp
    | none => simp [ih]

/-- The `Init` loop stops at the first endpoint whose `Init` fails, with the
error that `Init` returned. -/
theorem initLoop_first_error {env : Env} {g : Globals} {pre : List modInfo}
    (post : List modInfo) {ep : modInfo}
    {w w1 : World} {reg : Registry} {e : Err}
    (hpre : initLoop env g pre w = (w1, none))
    (hinit : env.init ep.inst (NewMap g ep.cfg) w1.reg = (reg, some e)) :
    initLoop env g (pre ++ ep :: post) w
      = ({ w1.emit (Event.init ep.inst (NewMap g ep.cfg)) with reg := reg }, some e) := by
  rw [initLoop_append, hpre]
  have : env.init ep.inst (NewMap g ep.cfg)
      (w1.emit (Event.init ep.inst (NewMap g ep.cfg))).reg = (reg, some e) := hinit
  simp [initLoop, this]

theorem unusedLoop_none_iff (reg : Registry) (mods : List modInfo) :
    unusedLoop reg mods = none ↔ ∀ m ∈ mods, m.inst.instanceName ∈ reg.initialized := by
  induction mods with
  | nil => simp [unusedLoop]
  | cons m rest ih =>
    by_cases hm : m.inst.instanceName ∈ reg.initialized
    · simp [unusedLoop, hm, ih]
    · simp [unusedLoop, hm]

/-- The scan stops at the first entry of `mods` that is not marked
initialized, with the unused-block error of that entry. -/
theorem unusedLoop_first (reg : Registry) (pre post : List modInfo) (m : modInfo)
    (hpre : ∀ p ∈ pre, p.inst.instanceName ∈ reg.initialized)
    (hm : m.inst.instanceName ∉ reg.initialized) :
    unusedLoop reg (pre ++ m :: post) = some (errUnused m) := by
  induction pre with
  | nil => simp [unusedLoop, hm, errUnused]
  | cons p rest ih =>
    have hp : p.inst.instanceName ∈ reg.initialized := hpre p (List.mem_cons_self _ _)
    simp only [List.cons_append, unusedLoop, hp, if_true]
    exact ih (fun q hq => hpre q (List.mem_cons_of_mem _ hq))

theorem instancesFromConfig_init_error {env : Env} {g : Globals} {nodes : List Node}
    {w w1 w2 : World} {acc : Acc} {e : Err}
    (hb : blocksLoop env g nodes { endpoints := [], mods := [] } w = (w1, Except.ok acc))
    (h0 : acc.endpoints ≠ [])
    (hi : initLoop env g acc.endpoints w1 = (w2, some e)) :
    instancesFromConfig env g nodes w = { insts := [], err := some e, world := w2 } := by
  simp [instancesFromConfig, hb, h0, hi]

theorem instancesFromConfig_unused {env : Env} {g : Globals} {nodes : List Node}
    {w w1 w2 : World} {acc : Acc} {e : Err}
    (hb : blocksLoop env g nodes { endpoints := [], mods := [] } w = (w1, Except.ok acc))
    (h0 : acc.endpoints ≠ [])
    (hi : initLoop env g acc.endpoints w1 = (w2, none))
    (hu : unusedLoop w2.reg acc.mods = some e) :
    instancesFromConfig env g nodes w = { insts := [], err := some e, world := w2 } := by
  simp [instancesFromConfig, hb, h0, hi, hu]

theorem mem_filterMap_moduleOf {env : Env} {nodes : List Node} {b : Node} {m : modInfo}
    (hb : b ∈ nodes) (hm : moduleOf env b = some m) : m ∈ nodes.filterMap (moduleOf env) :=
  List.mem_filterMap.mpr ⟨b, hb, hm⟩

theorem moduleOf_cfg {env : Env} {b : Node} {m : modInfo} (hm : moduleOf env b = some m) :
    m.cfg = b := by
  unfold moduleOf at hm
  repeat' split at hm
  all_goals simp at hm
  rw [← hm]

/-! ## C2: unused module blocks -/

/-- C2, as stated, fails.  In the first tree the `sql` block is referenced by
no endpoint, yet the error is the missing-endpoint error.  In the second tree
the block `b` is referenced by no endpoint, yet the error names the earlier
unreferenced block `a`. -/
theorem unused_block_other_error :
    isModuleBlock sampleEnv (blockAt 1 "sql" ["db"]) = true ∧
    (instancesFromConfig sampleEnv [] [blockAt 1 "sql" ["db"]] World.start).err
      = some errNoEndpoint ∧
    isModuleBlock sampleEnv (blockAt 2 "sql" ["b"]) = true ∧
    (instancesFromConfig sampleEnv []
      [blockAt 1 "sql" ["a"], blockAt 2 "sql" ["b"], blockAt 3 "smtp" []] World.start).err
      = some (Err.errorf "Unused configuration block at %s:%d - %s (%s)"
          [FmtArg.str "maddy.conf", FmtArg.int 1, FmtArg.str "a", FmtArg.str "sql"]) ∧
    (instancesFromConfig sampleEnv []
      [blockAt 1 "sql" ["a"], blockAt 2 "sql" ["b"], blockAt 3 "smtp" []] World.start).err
      ≠ some (Err.errorf "Unused configuration block at %s:%d - %s (%s)"
          [FmtArg.str "maddy.conf", FmtArg.int 2, FmtArg.str "b", FmtArg.str "sql"]) := by
  decide

/-- C2, amended: let `b` be a module block of the tree and `m` its entry in
`mods`.  If the instance name of `m` is not marked initialized whenever the
block loop and the `Init` loop run to their end, `instancesFromConfig` fails
and returns no instances.  If every block is processed without error, there
is an endpoint, every `Init` succeeds, and `m` is the first entry of `mods`
whose instance name is not marked initialized, the error is the unused-block
error naming the file and line of `b` and the `InstanceName()` and `Name()` of
its instance. -/
theorem unused_block_fails (env : Env) (g : Globals) (nodes : List Node) (w : World)
    (b : Node) (m : modInfo) (hb : b ∈ nodes) (hm : moduleOf env b = some m) :
    ((∀ w1 acc w2,
        blocksLoop env g nodes { endpoints := [], mods := [] } w = (w1, Except.ok acc) →
        initLoop env g acc.endpoints w1 = (w2, none) →
        m.inst.instanceName ∉ w2.reg.initialized) →
      (instancesFromConfig env g nodes w).insts = [] ∧
      ∃ e, (instancesFromConfig env g nodes w).err = some e) ∧
    (∀ w1 acc w2 pre post,
      blocksLoop env g nodes { endpoints := [], mods := [] } w = (w1, Except.ok acc) →
      acc.endpoints ≠ [] →
      initLoop env g acc.endpoints w1 = (w2, none) →
      nodes.filterMap (moduleOf env) = pre ++ m :: post →
      (∀ p ∈ pre, p.inst.instanceName ∈ w2.reg.initialized) →
      m.inst.instanceName ∉ w2.reg.initialized →
      instancesFromConfig env g nodes w =
        { insts := [],
          err := some (Err.errorf "Unused configuration block at %s:%d - %s (%s)"
            [FmtArg.str b.file, FmtArg.int b.line,
             FmtArg.str m.inst.instanceName, FmtArg.str m.inst.name]),
          world := w2 }) := by
  constructor
  · intro hnever
    cases he : (instancesFromConfig env g nodes w).err with
    | some e => exact ⟨instancesFromConfig_err_insts env g nodes w e he, e, rfl⟩
    | none =>
      exfalso
      obtain ⟨w1, acc, w2, h1, _, h3, h4, _⟩ := instancesFromConfig_ok he
      have hmods : acc.mods = nodes.filterMap (moduleOf env) := by
        rw [(blocksLoop_ok h1).2.1]
        rfl
      have hin : m ∈ acc.mods := by
        rw [hmods]
        exact mem_filterMap_moduleOf hb hm
      exact hnever w1 acc w2 h1 h3 ((unusedLoop_none_iff _ _).mp h4 m hin)
  · intro w1 acc w2 pre post h1 h2 h3 h4 h5 h6
    have hmods : acc.mods = pre ++ m :: post := by
      rw [(blocksLoop_ok h1).2.1, ← h4]
      rfl
    have hu : unusedLoop w2.reg acc.mods = some (errUnused m) := by
      rw [hmods]
      exact unusedLoop_first w2.reg pre post m h5 h6
    rw [instancesFromConfig_unused h1 h2 h3 hu]
    simp [errUnused, moduleOf_cfg hm]

/-- C2, amended, at a tree whose `smtp` block references `db` and not `cache`. -/
theorem unused_block_fails_witness :
    blockAt 2 "sql" ["cache"] ∈
      [blockAt 1 "sql" ["db"], blockAt 2 "sql" ["cache"],
       blockWith 3 "smtp" [] [("auth", ["db"])]] ∧
    (instancesFromConfig sampleEnv []
      [blockAt 1 "sql" ["db"], blockAt 2 "sql" ["cache"],
       blockWith 3 "smtp" [] [("auth", ["db"])]] World.start).err
      = some (Err.errorf "Unused configuration block at %s:%d - %s (%s)"
          [FmtArg.str "maddy.conf", FmtArg.int 2, FmtArg.str "cache", FmtArg.str "sql"]) :=
  have hb : blockAt 2 "sql" ["cache"] ∈
      [blockAt 1 "sql" ["db"], blockAt 2 "sql" ["cache"],
       blockWith 3 "smtp" [] [("auth", ["db"])]] :=
    List.mem_cons_of_mem _ (List.mem_cons_self _ _)
  ⟨hb, by
    rw [(unused_block_fails sampleEnv []
      [blockAt 1 "sql" ["db"], blockAt 2 "sql" ["cache"],
       blockWith 3 "smtp" [] [("auth", ["db"])]] World.start
      (blockAt 2 "sql" ["cache"])
      { inst := { name := "sql", instanceName := "cache", closer := false, addr := 100 },
        cfg := blockAt 2 "sql" ["cache"] } hb rfl).2
      (blocksLoop sampleEnv []
        [blockAt 1 "sql" ["db"], blockAt 2 "sql" ["cache"],
         blockWith 3 "smtp" [] [("auth", ["db"])]] { endpoints := [], mods := [] }
        World.start).1
      { endpoints := [{ inst := { name := "smtp", instanceName := "smtp", closer := true,
                                  addr := 0 },
                        cfg := blockWith 3 "smtp" [] [("auth", ["db"])] }],
        mods := [{ inst := { name := "sql", instanceName := "db", closer := false,
                             addr := 100 },
                   cfg := blockAt 1 "sql" ["db"] },
                 { inst := { name := "sql", instanceName := "cache", closer := false,
                             addr := 100 },
                   cfg := blockAt 2 "sql" ["cache"] }] }
      (initLoop sampleEnv []
        [{ inst := { name := "smtp", instanceName := "smtp", closer := true, addr := 0 },
           cfg := blockWith 3 "smtp" [] [("auth", ["db"])] }]
        (blocksLoop sampleEnv []
          [blockAt 1 "sql" ["db"], blockAt 2 "sql" ["cache"],
           blockWith 3 "smtp" [] [("auth", ["db"])]] { endpoints := [], mods := [] }
          World.start).1).1
      [{ inst := { name := "sql", instanceName := "db", closer := false, addr := 100 },
         cfg := blockAt 1 "sql" ["db"] }]
      [] rfl (by simp) rfl rfl (by decide) (by decide)]
    rfl⟩

/-! ## C8: errors of factories and of `Init` -/

/-- C8, as stated, fails: the `sql` factory refuses the block with the error
`sql: cannot open database`, and `instancesFromConfig` returns exactly that
error value; nothing is wrapped around it. -/
theorem factory_error_not_wrapped :
    sqlFactory "sql" "broken" [] [] = Except.error (Err.plugin "sql: cannot open database") ∧
    (instancesFromConfig sampleEnv []
      [blockAt 1 "sql" ["broken"], blockAt 2 "smtp" []] World.start).err
      = some (Err.plugin "sql: cannot open database") :=
  ⟨rfl, by decide⟩

/-- C8, amended: when an endpoint factory, a module factory or the `Init` of an
endpoint returns an error (and nothing failed before), `instancesFromConfig`
returns that very error, unchanged, and no instances. -/
theorem plugin_error_returned_unchanged (env : Env) (g : Globals) :
    (∀ (pre post : List Node) (b : Node) (w w1 : World) (acc : Acc)
        (endpFactory : String → List String → Except Err Module) (e : Err),
      blocksLoop env g pre { endpoints := [], mods := [] } w = (w1, Except.ok acc) →
      env.getEndpoint b.name = some endpFactory →
      endpFactory b.name b.args = Except.error e →
      (instancesFromConfig env g (pre ++ b :: post) w).err = some e ∧
      (instancesFromConfig env g (pre ++ b :: post) w).insts = []) ∧
    (∀ (pre post : List Node) (b : Node) (w w1 : World) (acc : Acc)
        (factory : String → String → List String → List String → Except Err Module) (e : Err),
      blocksLoop env g pre { endpoints := [], mods := [] } w = (w1, Except.ok acc) →
      env.getEndpoint b.name = none →
      env.get b.name = some factory →
      instNameOf b ∉ taken w1.reg →
      factory b.name (instNameOf b) (modAliasesOf b) [] = Except.error e →
      (instancesFromConfig env g (pre ++ b :: post) w).err = some e ∧
      (instancesFromConfig env g (pre ++ b :: post) w).insts = []) ∧
    (∀ (nodes : List Node) (w w1 w2 : World) (acc : Acc) (pre post : List modInfo)
        (endp : modInfo) (reg : Registry) (e : Err),
      blocksLoop env g nodes { endpoints := [], mods := [] } w = (w1, Except.ok acc) →
      acc.endpoints = pre ++ endp :: post →
      initLoop env g pre w1 = (w2, none) →
      env.init endp.inst (NewMap g endp.cfg) w2.reg = (reg, some e) →
      (instancesFromConfig env g nodes w).err = some e ∧
      (instancesFromConfig env g nodes w).insts = []) := by
  refine ⟨?_, ?_, ?_⟩
  · intro pre post b w w1 acc f e hpre hf hi
    rw [instancesFromConfig_block_error hpre (processBlock_endpoint_error hf hi) post]
    exact ⟨rfl, rfl⟩
  · intro pre post b w w1 acc f e hpre hf hg hfree hi
    rw [instancesFromConfig_block_error hpre (processBlock_factory_error hf hg hfree hi) post]
    exact ⟨rfl, rfl⟩
  · intro nodes w w1 w2 acc pre post endp reg e hb hsplit hpre hinit
    have h0 : acc.endpoints ≠ [] := by
      rw [hsplit]
      simp
    have hi := initLoop_first_error post hpre hinit
    rw [← hsplit] at hi
    rw [instancesFromConfig_init_error hb h0 hi]
    exact ⟨rfl, rfl⟩

/-- C8, amended, at a tree whose `smtp` block has a directive `tls`, on which
the `Init` of the sample endpoint fails. -/
theorem plugin_error_returned_unchanged_witness :
    sampleEnv.init { name := "smtp", instanceName := "smtp", closer := true, addr := 0 }
      (NewMap [] (blockWith 1 "smtp" [] [("tls", ["off"])]))
      World.start.reg
      = (World.start.reg, some (Err.plugin "smtp: tls: certificate not found")) ∧
    (instancesFromConfig sampleEnv [] [blockWith 1 "smtp" [] [("tls", ["off"])]]
      World.start).err = some (Err.plugin "smtp: tls: certificate not found") ∧
    (instancesFromConfig sampleEnv [] [blockWith 1 "smtp" [] [("tls", ["off"])]]
      World.start).insts = [] :=
  ⟨rfl,
    (plugin_error_returned_unchanged sampleEnv []).2.2
      [blockWith 1 "smtp" [] [("tls", ["off"])]] World.start
      (World.start.emit (Event.endpFactory "smtp" []))
      (World.start.emit (Event.endpFactory "smtp" []))
      { endpoints := [{ inst := { name := "smtp", instanceName := "smtp", closer := true,
                                  addr := 0 },
                        cfg := blockWith 1 "smtp" [] [("tls", ["off"])] }],
        mods := [] }
      [] []
      { inst := { name := "smtp", instanceName := "smtp", closer := true, addr := 0 },
        cfg := blockWith 1 "smtp" [] [("tls", ["off"])] }
      World.start.reg (Err.plugin "smtp: tls: certificate not found") rfl rfl rfl rfl⟩

/-! ## C9: no partial success -/

/-- C9: `instancesFromConfig` either returns no error and the full instance
list (one instance per block), or an error and no instance.  Every failure
ends the call at once, in the state reached at the failing step: a failing
block (unknown name, duplicate name, factory error), the missing endpoint, a
failing `Init`, an unused block. -/
theorem no_partial_success (env : Env) (g : Globals) (nodes : List Node) (w : World) :
    (((instancesFromConfig env g nodes w).err = none ∧
        (instancesFromConfig env g nodes w).insts =
          (nodes.filterMap (endpointOf env)).map modInfo.inst ++
            (nodes.filterMap (moduleOf env)).map modInfo.inst ∧
        (instancesFromConfig env g nodes w).insts.length = nodes.length) ∨
      (∃ e, (instancesFromConfig env g nodes w).err = some e ∧
        (instancesFromConfig env g nodes w).insts = [])) ∧
    (∀ pre b post w1 acc w2 e, nodes = pre ++ b :: post →
      blocksLoop env g pre { endpoints := [], mods := [] } w = (w1, Except.ok acc) →
      processBlock env g b acc w1 = (w2, Except.error e) →
      instancesFromConfig env g nodes w = { insts := [], err := some e, world := w2 }) ∧
    (∀ w1 acc,
      blocksLoop env g nodes { endpoints := [], mods := [] } w = (w1, Except.ok acc) →
      acc.endpoints = [] →
      instancesFromConfig env g nodes w =
        { insts := [], err := some errNoEndpoint, world := w1 }) ∧
    (∀ w1 acc pre endp post w2 reg e,
      blocksLoop env g nodes { endpoints := [], mods := [] } w = (w1, Except.ok acc) →
      acc.endpoints = pre ++ endp :: post →
      initLoop env g pre w1 = (w2, none) →
      env.init endp.inst (NewMap g endp.cfg) w2.reg = (reg, some e) →
      instancesFromConfig env g nodes w =
        { insts := [], err := some e,
          world := { w2.emit (Event.init endp.inst (NewMap g endp.cfg)) with reg := reg } }) ∧
    (∀ w1 acc w2 e,
      blocksLoop env g nodes { endpoints := [], mods := [] } w = (w1, Except.ok acc) →
      acc.endpoints ≠ [] →
      initLoop env g acc.endpoints w1 = (w2, none) →
      unusedLoop w2.reg acc.mods = some e →
      instancesFromConfig env g nodes w = { insts := [], err := some e, world := w2 }) := by
  refine ⟨?_, ?_, ?_, ?_, ?_⟩
  · cases he : (instancesFromConfig env g nodes w).err with
    | some e => exact Or.inr ⟨e, rfl, instancesFromConfig_err_insts env g nodes w e he⟩
    | none =>
      obtain ⟨w1, acc, w2, hb, _, _, _, hout⟩ := instancesFromConfig_ok he
      obtain ⟨h1, h2, h3, _⟩ := blocksLoop_ok hb
      simp only [List.nil_append] at h1 h2
      refine Or.inl ⟨rfl, ?_, ?_⟩
      · rw [hout, h1, h2]
      · rw [hout]
        simp only [List.length_append, List.length_map, h1, h2]
        exact h3
  · intro pre b post w1 acc w2 e hn hpre hb
    rw [hn]
    exact instancesFromConfig_block_error hpre hb post
  · intro w1 acc hb h0
    exact instancesFromConfig_no_endpoints hb h0
  · intro w1 acc pre endp post w2 reg e hb hsplit hpre hinit
    have h0 : acc.endpoints ≠ [] := by
      rw [hsplit]
      simp
    have hi := initLoop_first_error post hpre hinit
    rw [← hsplit] at hi
    exact instancesFromConfig_init_error hb h0 hi
  · intro w1 acc w2 e hb h0 hi hu
    exact instancesFromConfig_unused hb h0 hi hu

/-- C9 at a tree whose second block fails on a duplicate name: the call ends
with the trace of the two `HasInstance` calls, one factory call and one
registration made up to there, and the third block is never looked at. -/
theorem no_partial_success_witness :
    (instancesFromConfig sampleEnv []
      [blockAt 1 "sql" ["db"], blockAt 2 "sql" ["db"], blockAt 3 "smtp" []] World.start).insts
      = [] ∧
    (instancesFromConfig sampleEnv []
      [blockAt 1 "sql" ["db"], blockAt 2 "sql" ["db"], blockAt 3 "smtp" []] World.start).err
      = some (errDuplicate (blockAt 2 "sql" ["db"]) "db") ∧
    (instancesFromConfig sampleEnv []
      [blockAt 1 "sql" ["db"], blockAt 2 "sql" ["db"], blockAt 3 "smtp" []]
      World.start).world.trace.length = 4 := by
  have t := (no_partial_success sampleEnv []
    [blockAt 1 "sql" ["db"], blockAt 2 "sql" ["db"], blockAt 3 "smtp" []] World.start).2.1
    [blockAt 1 "sql" ["db"]] (blockAt 2 "sql" ["db"]) [blockAt 3 "smtp" []]
    (blocksLoop sampleEnv [] [blockAt 1 "sql" ["db"]] { endpoints := [], mods := [] }
      World.start).1
    { endpoints := [],
      mods := [{ inst := { name := "sql", instanceName := "db", closer := false, addr := 100 },
                 cfg := blockAt 1 "sql" ["db"] }] }
    ((blocksLoop sampleEnv [] [blockAt 1 "sql" ["db"]] { endpoints := [], mods := [] }
      World.start).1.emit (Event.hasInstance "db"))
    (errDuplicate (blockAt 2 "sql" ["db"]) "db") rfl rfl rfl
  rw [t]
  exact ⟨rfl, rfl, rfl⟩

/-! ## C10: shutdown -/

/-- The shutdown loop calls `Close` on the instances that implement
`io.Closer`, in list order, whatever the calls return. -/
theorem closeLoop_closed {σ : Type} (close : Module → σ → σ × Option Err)
    (insts : List Module) (s : Shutdown σ) :
    (closeLoop close insts s).closed = s.closed ++ insts.filter Module.closer ∧
    (closeLoop close insts s).ext
      = (insts.filter Module.closer).foldl (fun x inst => (close inst x).1) s.ext := by
  induction insts generalizing s with
  | nil => simp [closeLoop]
  | cons inst rest ih =>
    cases hc : inst.closer with
    | false => simp [closeLoop, hc, ih]
    | true =>
      rcases hr : close inst s.ext with ⟨ext, r⟩
      cases r with
      | none => simp [closeLoop, hc, hr, ih]
      | some e => simp [closeLoop, hc, hr, ih]

/-- C10: for every instance list and every behaviour of the `Close` methods,
the shutdown loop calls `Close` exactly on the instances that implement
`io.Closer`, once per list entry and in list order, each call acting on the
state the previous one left, whether or not an earlier call failed; and once
`instancesFromConfig` has succeeded, `moduleMain` runs this loop over the
returned instances and returns no error. -/
theorem shutdown_closes_every_closer {σ : Type} (env : MainEnv σ) :
    (∀ (insts : List Module) (s : Shutdown σ),
      (closeLoop env.close insts s).closed = s.closed ++ insts.filter Module.closer ∧
      (closeLoop env.close insts s).ext
        = (insts.filter Module.closer).foldl (fun x inst => (env.close inst x).1) s.ext) ∧
    (∀ (cfg : List Node) (w : World) (s : σ) (values : Globals) (unknown : List Node),
      env.processGlobals cfg = Except.ok (values, unknown) →
      env.initDirs = none →
      (instancesFromConfig env.toEnv values unknown w).err = none →
      (moduleMain env cfg w s).err = none ∧
      (moduleMain env cfg w s).shutdown.closed
        = (instancesFromConfig env.toEnv values unknown w).insts.filter Module.closer ∧
      (moduleMain env cfg w s).shutdown.ext
        = ((instancesFromConfig env.toEnv values unknown w).insts.filter Module.closer).foldl
            (fun x inst => (env.close inst x).1) s) := by
  constructor
  · intro insts s
    exact closeLoop_closed env.close insts s
  · intro cfg w s values unknown hp hd he
    have hc := closeLoop_closed env.close
      (instancesFromConfig env.toEnv values unknown w).insts
      { ext := s, closed := [], log := [] }
    simp only [moduleMain, hp, hd, he]
    exact ⟨trivial, by simpa using hc.1, hc.2⟩

/-- C10 at a tree of two endpoints and one module: `Close` fails for `mx`, is
still called for `submission`, is not called for the `sql` instance, and
`moduleMain` returns no error. -/
theorem shutdown_closes_every_closer_witness :
    sampleMain.close { name := "smtp", instanceName := "mx", closer := true, addr := 1 } 0
      = (1, some (Err.plugin "smtp: close failed")) ∧
    (moduleMain sampleMain
      [blockWith 1 "smtp" ["mx"] [("auth", ["db"])], blockAt 3 "sql" ["db"],
       blockAt 4 "smtp" ["submission"]] World.start 0).err = none ∧
    (moduleMain sampleMain
      [blockWith 1 "smtp" ["mx"] [("auth", ["db"])], blockAt 3 "sql" ["db"],
       blockAt 4 "smtp" ["submission"]] World.start 0).shutdown.closed
      = [{ name := "smtp", instanceName := "mx", closer := true, addr := 1 },
         { name := "smtp", instanceName := "submission", closer := true, addr := 1 }] ∧
    (moduleMain sampleMain
      [blockWith 1 "smtp" ["mx"] [("auth", ["db"])], blockAt 3 "sql" ["db"],
       blockAt 4 "smtp" ["submission"]] World.start 0).shutdown.ext = 2 := by
  have t := (shutdown_closes_every_closer sampleMain).2
    [blockWith 1 "smtp" ["mx"] [("auth", ["db"])], blockAt 3 "sql" ["db"],
     blockAt 4 "smtp" ["submission"]] World.start 0 []
    [blockWith 1 "smtp" ["mx"] [("auth", ["db"])], blockAt 3 "sql" ["db"],
     blockAt 4 "smtp" ["submission"]] rfl rfl (by decide)
  refine ⟨rfl, t.1, ?_, ?_⟩
  · rw [t.2.1]
    decide
  · rw [t.2.2]
    decide

/-! ## The call trace -/

/-- A run of the alias loop without error: what it appends to the trace, and
what it leaves in the registry. -/
theorem aliasLoop_ok_state {b : Node} {n : String} {as : List String} {w w1 : World}
    (h : aliasLoop b n as w = (w1, none)) :
    w1.trace = w.trace ++ aliasEvents n as ∧
    w1.reg.instances = w.reg.instances ∧
    w1.reg.aliases = (as.map fun a => (a, n)).reverse ++ w.reg.aliases ∧
    w1.reg.initialized = w.reg.initialized := by
  induction as generalizing w with
  | nil =>
    simp only [aliasLoop, Prod.mk.injEq, and_true] at h
    subst h
    simp [aliasEvents]
  | cons a rest ih =>
    simp only [aliasLoop] at h
    split at h
    · simp at h
    · obtain ⟨i1, i2, i3, i4⟩ := ih h
      refine ⟨?_, ?_, ?_, ?_⟩
      · rw [i1]
        simp [World.emit, aliasEvents, List.flatMap_cons]
      · rw [i2]
        rfl
      · rw [i3]
        simp [World.emit, RegisterAlias]
      · rw [i4]
        rfl

/-- The alias loop never calls `Init` or a factory, whatever its outcome. -/
theorem aliasLoop_trace {b : Node} {n : String} {as : List String} {w w1 : World}
    {r : Option Err} (h : aliasLoop b n as w = (w1, r)) :
    ∃ evs, w1.trace = w.trace ++ evs ∧
      (∀ e ∈ evs, e.isInit = false) ∧ (∀ e ∈ evs, e.isFactory = false) := by
  induction as generalizing w with
  | nil =>
    simp only [aliasLoop, Prod.mk.injEq] at h
    exact ⟨[], by simp [h.1], by simp, by simp⟩
  | cons a rest ih =>
    simp only [aliasLoop] at h
    split at h
    · simp only [Prod.mk.injEq] at h
      refine ⟨[Event.hasInstance a], ?_, ?_, ?_⟩
      · rw [← h.1]
        rfl
      · simp [Event.isInit]
      · simp [Event.isFactory]
    · obtain ⟨evs, i1, i2, i3⟩ := ih h
      refine ⟨[Event.hasInstance a, Event.registerAlias a n] ++ evs, ?_, ?_, ?_⟩
      · rw [i1]
        simp [World.emit]
      · intro e he
        rcases List.mem_append.mp he with he | he
        · simp only [List.mem_cons, List.mem_singleton, List.not_mem_nil, or_false] at he
          rcases he with rfl | rfl <;> rfl
        · exact i2 e he
      · intro e he
        rcases List.mem_append.mp he with he | he
        · simp only [List.mem_cons, List.mem_singleton, List.not_mem_nil, or_false] at he
          rcases he with rfl | rfl <;> rfl
        · exact i3 e he

/-- An iteration for an endpoint block is the call of the endpoint factory and
nothing else. -/
theorem processBlock_endpoint_eq {env : Env} (g : Globals) {b : Node} (acc : Acc) (w : World)
    {endpFactory : String → List String → Except Err Module}
    (hf : env.getEndpoint b.name = some endpFactory) :
    processBlock env g b acc w =
      (w.emit (Event.endpFactory b.name b.args),
        match endpFactory b.name b.args with
        | Except.error err => Except.error err
        | Except.ok inst =>
          Except.ok { endpoints := acc.endpoints ++ [{ inst := inst, cfg := b }],
                      mods := acc.mods }) := by
  simp only [processBlock, hf]
  cases endpFactory b.name b.args <;> rfl

/-- The trace of an iteration for a module block whose instance name is free:
the check, the factory call with the name and the aliases of the block, and
then no further factory call. -/
theorem processBlock_module_trace {env : Env} (g : Globals) {b : Node} (acc : Acc) {w : World}
    {factory : String → String → List String → List String → Except Err Module}
    (hf : env.getEndpoint b.name = none) (hg : env.get b.name = some factory)
    (hfree : instNameOf b ∉ taken w.reg) :
    ∃ evs, (processBlock env g b acc w).1.trace =
        w.trace ++ [Event.hasInstance (instNameOf b),
                    Event.factory b.name (instNameOf b) (modAliasesOf b)] ++ evs ∧
      (∀ e ∈ evs, e.isFactory = false) ∧ (∀ e ∈ evs, e.isInit = false) := by
  have h0 : ¬ HasInstance (w.emit (Event.hasInstance (instNameOf b))).reg (instNameOf b) = true :=
    fun hh => hfree ((hasInstance_iff _ _).mp hh)
  cases hi : factory b.name (instNameOf b) (modAliasesOf b) [] with
  | error e =>
    refine ⟨[], ?_, by simp, by simp⟩
    rw [processBlock_factory_error hf hg hfree hi]
    simp [World.emit]
  | ok inst =>
    simp only [processBlock, hf, hg, h0, hi, if_false]
    generalize hW : World.emit _ (Event.registerInstance inst (NewMap g b)) = w3
    have hw3 : w3.trace = w.trace ++ [Event.hasInstance (instNameOf b),
        Event.factory b.name (instNameOf b) (modAliasesOf b),
        Event.registerInstance inst (NewMap g b)] := by
      subst hW
      simp [World.emit]
    rcases hal : aliasLoop b (instNameOf b) (modAliasesOf b) w3 with ⟨w4, r⟩
    obtain ⟨evs, t1, t2, t3⟩ := aliasLoop_trace hal
    refine ⟨Event.registerInstance inst (NewMap g b) :: evs, ?_, ?_, ?_⟩
    · cases r <;> simp [t1, hw3]
    · intro e he
      rcases List.mem_cons.mp he with rfl | he
      · rfl
      · exact t3 e he
    · intro e he
      rcases List.mem_cons.mp he with rfl | he
      · rfl
      · exact t2 e he

/-- An iteration never calls `Init`, whatever its outcome. -/
theorem processBlock_trace {env : Env} {g : Globals} {b : Node} {acc : Acc} {w w1 : World}
    {r : Except Err Acc} (h : processBlock env g b acc w = (w1, r)) :
    ∃ evs, w1.trace = w.trace ++ evs ∧ ∀ e ∈ evs, e.isInit = false := by
  cases hf : env.getEndpoint b.name with
  | some ef =>
    rw [processBlock_endpoint_eq g acc w hf] at h
    simp only [Prod.mk.injEq] at h
    refine ⟨[Event.endpFactory b.name b.args], ?_, ?_⟩
    · rw [← h.1]
      rfl
    · simp [Event.isInit]
  | none =>
    cases hg : env.get b.name with
    | none =>
      rw [processBlock_unknown env g b acc w hf hg] at h
      simp only [Prod.mk.injEq] at h
      exact ⟨[], by simp [h.1], by simp⟩
    | some factory =>
      by_cases hin : instNameOf b ∈ taken w.reg
      · rw [processBlock_duplicate_name hf hg hin] at h
        simp only [Prod.mk.injEq] at h
        refine ⟨[Event.hasInstance (instNameOf b)], ?_, ?_⟩
        · rw [← h.1]
          rfl
        · simp [Event.isInit]
      · obtain ⟨evs, t1, _, t3⟩ := processBlock_module_trace g acc hf hg hin
        rw [h] at t1
        refine ⟨[Event.hasInstance (instNameOf b),
          Event.factory b.name (instNameOf b) (modAliasesOf b)] ++ evs, ?_, ?_⟩
        · rw [t1]
          simp
        · intro e he
          rcases List.mem_append.mp he with he | he
          · simp only [List.mem_cons, List.mem_singleton, List.not_mem_nil, or_false] at he
            rcases he with rfl | rfl <;> rfl
          · exact t3 e he

/-- A successful iteration: the calls it made, and what it left in the
registry. -/
theorem processBlock_ok_state {env : Env} {g : Globals} {b : Node} {acc acc1 : Acc}
    {w w1 : World} (h : processBlock env g b acc w = (w1, Except.ok acc1)) :
    w1.trace = w.trace ++ blockEvents env g b ∧
    w1.reg.instances = (instanceEntries env g [b]).reverse ++ w.reg.instances ∧
    w1.reg.aliases = (aliasEntries env [b]).reverse ++ w.reg.aliases ∧
    w1.reg.initialized = w.reg.initialized := by
  cases hf : env.getEndpoint b.name with
  | some ef =>
    have he : isEndpointBlock env b = true := by simp [isEndpointBlock, hf]
    have hm := moduleOf_endpoint he
    rw [processBlock_endpoint_eq g acc w hf] at h
    simp only [Prod.mk.injEq] at h
    rw [← h.1]
    simp [blockEvents, he, instanceEntries, aliasEntries, hm, World.emit]
  | none =>
    have he : isEndpointBlock env b = false := by simp [isEndpointBlock, hf]
    cases hg : env.get b.name with
    | none => simp [processBlock, hf, hg] at h
    | some f =>
      cases hi : f b.name (instNameOf b) (modAliasesOf b) [] with
      | error e =>
        simp only [processBlock, hf, hg, hi] at h
        split at h <;> simp at h
      | ok inst =>
        have hm : moduleOf env b = some { inst := inst, cfg := b } := by
          simp [moduleOf, hf, hg, hi]
        simp only [processBlock, hf, hg, hi] at h
        split at h
        · simp at h
        · split at h
          · simp at h
          · rename_i w4 hal
            simp only [Prod.mk.injEq, Except.ok.injEq] at h
            obtain ⟨a1, a2, a3, a4⟩ := aliasLoop_ok_state hal
            rw [← h.1]
            refine ⟨?_, ?_, ?_, ?_⟩
            · rw [a1]
              simp [blockEvents, he, hm, World.emit]
            · rw [a2]
              simp [instanceEntries, hm, World.emit, RegisterInstance]
            · rw [a3]
              simp [aliasEntries, hm, World.emit, RegisterInstance]
            · rw [a4]
              rfl

/-- The block loop never calls `Init`, whatever its outcome. -/
theorem blocksLoop_trace {env : Env} {g : Globals} {nodes : List Node} {acc : Acc}
    {w w1 : World} {r : Except Err Acc} (h : blocksLoop env g nodes acc w = (w1, r)) :
    ∃ evs, w1.trace = w.trace ++ evs ∧ ∀ e ∈ evs, e.isInit = false := by
  induction nodes generalizing acc w with
  | nil =>
    simp only [blocksLoop, Prod.mk.injEq] at h
    exact ⟨[], by simp [h.1], by simp⟩
  | cons b bs ih =>
    simp only [blocksLoop] at h
    rcases hp : processBlock env g b acc w with ⟨w2, r2⟩
    obtain ⟨evs, t1, t2⟩ := processBlock_trace hp
    rw [hp] at h
    cases r2 with
    | error e =>
      simp only [Prod.mk.injEq] at h
      exact ⟨evs, by rw [← h.1, t1], t2⟩
    | ok a =>
      simp only at h
      obtain ⟨evs2, u1, u2⟩ := ih h
      refine ⟨evs ++ evs2, by rw [u1, t1, List.append_assoc], ?_⟩
      intro e he
      rcases List.mem_append.mp he with he | he
      · exact t2 e he
      · exact u2 e he

/-- A successful run of the block loop: the calls it made, and what it left in
the registry. -/
theorem blocksLoop_ok_state {env : Env} {g : Globals} {nodes : List Node} {acc acc1 : Acc}
    {w w1 : World} (h : blocksLoop env g nodes acc w = (w1, Except.ok acc1)) :
    w1.trace = w.trace ++ nodes.flatMap (blockEvents env g) ∧
    w1.reg.instances = (instanceEntries env g nodes).reverse ++ w.reg.instances ∧
    w1.reg.aliases = (aliasEntries env nodes).reverse ++ w.reg.aliases ∧
    w1.reg.initialized = w.reg.initialized := by
  induction nodes generalizing acc w with
  | nil =>
    simp only [blocksLoop, Prod.mk.injEq] at h
    simp [h.1, instanceEntries, aliasEntries]
  | cons b bs ih =>
    simp only [blocksLoop] at h
    rcases hp : processBlock env g b acc w with ⟨w2, r2⟩
    rw [hp] at h
    cases r2 with
    | error e => simp at h
    | ok a =>
      simp only at h
      obtain ⟨t1, t2, t3, t4⟩ := processBlock_ok_state hp
      obtain ⟨u1, u2, u3, u4⟩ := ih h
      refine ⟨?_, ?_, ?_, ?_⟩
      · rw [u1, t1, List.flatMap_cons, List.append_assoc]
      · rw [u2, t2]
        cases hm : moduleOf env b <;>
          simp [instanceEntries, List.filterMap_cons, hm]
      · rw [u3, t3]
        cases hm : moduleOf env b <;>
          simp [aliasEntries, List.filterMap_cons, hm, List.flatMap_cons]
      · rw [u4, t4]

/-- The `Init` loop calls `Init` for a prefix of the endpoints, in order, and
for all of them when it ends without error. -/
theorem initLoop_trace {env : Env} {g : Globals} {eps : List modInfo} {w w1 : World}
    {r : Option Err} (h : initLoop env g eps w = (w1, r)) :
    ∃ done, done <+: eps ∧ w1.trace = w.trace ++ done.map (initEvent g) ∧
      (r = none → done = eps) ∧ (eps ≠ [] → done ≠ []) := by
  induction eps generalizing w with
  | nil =>
    simp only [initLoop, Prod.mk.injEq] at h
    exact ⟨[], List.prefix_refl _, by simp [h.1], fun _ => rfl, fun hne => absurd rfl hne⟩
  | cons ep rest ih =>
    simp only [initLoop] at h
    rcases hi : env.init ep.inst (NewMap g ep.cfg)
      (w.emit (Event.init ep.inst (NewMap g ep.cfg))).reg with ⟨reg, r2⟩
    rw [hi] at h
    cases r2 with
    | some e =>
      simp only [Prod.mk.injEq] at h
      refine ⟨[ep], ?_, ?_, ?_, ?_⟩
      · exact List.prefix_iff_eq_append.mpr (by simp)
      · rw [← h.1]
        rfl
      · intro hr
        rw [hr] at h
        simp at h
      · intro _
        simp
    | none =>
      simp only at h
      obtain ⟨done, d1, d2, d3, _⟩ := ih h
      refine ⟨ep :: done, ?_, ?_, ?_, ?_⟩
      · obtain ⟨t, ht⟩ := d1
        exact ⟨t, by simp [← ht]⟩
      · rw [d2]
        simp [World.emit, initEvent]
      · intro hr
        rw [d3 hr]
      · intro _
        simp

/-- A name that becomes marked as initialized during a run of the `Init` loop
is marked by the `Init` of one of the endpoints. -/
theorem initLoop_marks {env : Env} {g : Globals} {eps : List modInfo} {w w1 : World}
    {x : String} (h : initLoop env g eps w = (w1, none))
    (h0 : x ∉ w.reg.initialized) (h1 : x ∈ w1.reg.initialized) :
    ∃ pre ep post wa regb, eps = pre ++ ep :: post ∧
      initLoop env g pre w = (wa, none) ∧
      env.init ep.inst (NewMap g ep.cfg) wa.reg = (regb, none) ∧
      x ∉ wa.reg.initialized ∧ x ∈ regb.initialized := by
  induction eps generalizing w with
  | nil =>
    simp only [initLoop, Prod.mk.injEq, and_true] at h
    subst h
    exact absurd h1 h0
  | cons ep rest ih =>
    simp only [initLoop] at h
    rcases hi : env.init ep.inst (NewMap g ep.cfg)
      (w.emit (Event.init ep.inst (NewMap g ep.cfg))).reg with ⟨reg, r2⟩
    rw [hi] at h
    cases r2 with
    | some e => simp at h
    | none =>
      simp only at h
      by_cases hx : x ∈ reg.initialized
      · exact ⟨[], ep, rest, w, reg, rfl, rfl, hi, h0, hx⟩
      · obtain ⟨pre, ep2, post, wa, regb, e1, e2, e3, e4, e5⟩ := ih h hx
        refine ⟨ep :: pre, ep2, post, wa, regb, by simp [e1], ?_, e3, e4, e5⟩
        simp only [initLoop, hi]
        exact e2

/-- The calls of a whole run: first calls of the block loop, none of them an
`Init`, then the `Init` calls for a prefix of the endpoint entries, in
config-tree order.  An `Init` call is only made after the block loop has run
to its end without error; a successful run has made all the calls. -/
theorem instancesFromConfig_trace (env : Env) (g : Globals) (nodes : List Node) (w : World) :
    ∃ blockEvs done,
      (instancesFromConfig env g nodes w).world.trace
        = w.trace ++ blockEvs ++ done.map (initEvent g) ∧
      (∀ e ∈ blockEvs, e.isInit = false) ∧
      done <+: nodes.filterMap (endpointOf env) ∧
      (done ≠ [] → ∃ w1 acc,
        blocksLoop env g nodes { endpoints := [], mods := [] } w = (w1, Except.ok acc) ∧
        w1.trace = w.trace ++ blockEvs ∧
        blockEvs = nodes.flatMap (blockEvents env g)) ∧
      ((instancesFromConfig env g nodes w).err = none →
        done = nodes.filterMap (endpointOf env) ∧
        blockEvs = nodes.flatMap (blockEvents env g)) := by
  rcases hb : blocksLoop env g nodes { endpoints := [], mods := [] } w with ⟨w1, r⟩
  obtain ⟨evs, t1, t2⟩ := blocksLoop_trace hb
  cases r with
  | error e =>
    refine ⟨evs, [], ?_, t2, List.nil_prefix, fun hne => absurd rfl hne, ?_⟩
    · rw [instancesFromConfig_blocks_error hb]
      simp [t1]
    · rw [instancesFromConfig_blocks_error hb]
      intro hc
      simp at hc
  | ok acc =>
    have hev : evs = nodes.flatMap (blockEvents env g) := by
      have := (blocksLoop_ok_state hb).1
      rw [t1] at this
      exact List.append_cancel_left this
    have hend : acc.endpoints = nodes.filterMap (endpointOf env) := by
      rw [(blocksLoop_ok hb).1]
      rfl
    by_cases h0 : acc.endpoints = []
    · refine ⟨evs, [], ?_, t2, List.nil_prefix, fun hne => absurd rfl hne, ?_⟩
      · rw [instancesFromConfig_no_endpoints hb h0]
        simp [t1]
      · rw [instancesFromConfig_no_endpoints hb h0]
        intro hc
        simp at hc
    · rcases hi : initLoop env g acc.endpoints w1 with ⟨w2, r2⟩
      obtain ⟨done, d1, d2, d3, _⟩ := initLoop_trace hi
      have hworld : (instancesFromConfig env g nodes w).world = w2 := by
        cases r2 with
        | some e => rw [instancesFromConfig_init_error hb h0 hi]
        | none =>
          cases hu : unusedLoop w2.reg acc.mods with
          | some e => rw [instancesFromConfig_unused hb h0 hi hu]
          | none => simp [instancesFromConfig, hb, h0, hi, hu]
      refine ⟨evs, done, ?_, t2, ?_, ?_, ?_⟩
      · rw [hworld, d2, t1]
      · rw [← hend]
        exact d1
      · intro _
        exact ⟨w1, acc, rfl, t1, hev⟩
      · intro herr
        refine ⟨?_, hev⟩
        rw [← hend]
        apply d3
        cases r2 with
        | none => rfl
        | some e =>
          rw [instancesFromConfig_init_error hb h0 hi] at herr
          simp at herr

theorem endpointOf_nonEndpoint {env : Env} {b : Node} (he : isEndpointBlock env b = false) :
    endpointOf env b = none := by
  unfold isEndpointBlock at he
  cases hf : env.getEndpoint b.name with
  | none => simp [endpointOf, hf]
  | some f => simp [hf] at he

theorem endpointOf_cfg {env : Env} {b : Node} {ep : modInfo} (h : endpointOf env b = some ep) :
    ep.cfg = b ∧ isEndpointBlock env b = true := by
  unfold endpointOf at h
  cases hf : env.getEndpoint b.name with
  | none => simp [hf] at h
  | some f =>
    simp only [hf] at h
    cases hi : f b.name b.args with
    | error e => simp [hi] at h
    | ok inst =>
      simp only [hi, Option.some.injEq] at h
      rw [← h]
      exact ⟨rfl, by simp [isEndpointBlock, hf]⟩

/-- When every block yields exactly one instance, a block that is not an
endpoint block yields a module instance. -/
theorem moduleOf_of_one {env : Env} {b : Node}
    (h1 : ((endpointOf env b).toList ++ (moduleOf env b).toList).length = 1)
    (he : isEndpointBlock env b = false) : ∃ m, moduleOf env b = some m ∧ m.cfg = b := by
  rw [endpointOf_nonEndpoint he] at h1
  cases hm : moduleOf env b with
  | none => simp [hm] at h1
  | some m => exact ⟨m, rfl, moduleOf_cfg hm⟩

/-- When every block yields exactly one instance, the endpoint entries stand
for the endpoint blocks, in config-tree order. -/
theorem endpoint_cfgs {env : Env} {nodes : List Node}
    (h1 : ∀ b ∈ nodes, ((endpointOf env b).toList ++ (moduleOf env b).toList).length = 1) :
    (nodes.filterMap (endpointOf env)).map modInfo.cfg
      = nodes.filter (isEndpointBlock env) := by
  induction nodes with
  | nil => rfl
  | cons b bs ih =>
    have hb := h1 b (List.mem_cons_self _ _)
    have ih1 := ih (fun x hx => h1 x (List.mem_cons_of_mem _ hx))
    cases he : isEndpointBlock env b with
    | false =>
      simp [List.filterMap_cons, endpointOf_nonEndpoint he, List.filter_cons, he, ih1]
    | true =>
      rw [moduleOf_endpoint he] at hb
      cases hep : endpointOf env b with
      | none => simp [hep] at hb
      | some ep =>
        simp [List.filterMap_cons, hep, List.filter_cons, he, ih1, (endpointOf_cfg hep).1]

/-- The module entries come from the blocks that are not endpoint blocks. -/
theorem filterMap_moduleOf_filter (env : Env) (nodes : List Node) :
    (nodes.filter fun b => !isEndpointBlock env b).filterMap (moduleOf env)
      = nodes.filterMap (moduleOf env) := by
  induction nodes with
  | nil => rfl
  | cons b bs ih =>
    cases he : isEndpointBlock env b with
    | false => simp [List.filter_cons, he, List.filterMap_cons, ih]
    | true => simp [List.filter_cons, he, List.filterMap_cons, moduleOf_endpoint he, ih]

/-- The calls made for a module block are among the calls of the block loop. -/
theorem module_block_calls {env : Env} (g : Globals) {nodes : List Node} {b : Node}
    {m : modInfo} (hb : b ∈ nodes) (he : isEndpointBlock env b = false)
    (hm : moduleOf env b = some m) :
    Event.factory b.name (instNameOf b) (modAliasesOf b) ∈ nodes.flatMap (blockEvents env g) ∧
    Event.registerInstance m.inst (NewMap g b) ∈ nodes.flatMap (blockEvents env g) ∧
    (∀ a ∈ modAliasesOf b,
      Event.registerAlias a (instNameOf b) ∈ nodes.flatMap (blockEvents env g)) := by
  have hev : blockEvents env g b =
      [Event.hasInstance (instNameOf b),
       Event.factory b.name (instNameOf b) (modAliasesOf b),
       Event.registerInstance m.inst (NewMap g b)] ++
        aliasEvents (instNameOf b) (modAliasesOf b) := by
    simp [blockEvents, he, hm]
  refine ⟨?_, ?_, ?_⟩
  · exact List.mem_flatMap.mpr ⟨b, hb, by rw [hev]; simp⟩
  · exact List.mem_flatMap.mpr ⟨b, hb, by rw [hev]; simp⟩
  · intro a ha
    refine List.mem_flatMap.mpr ⟨b, hb, ?_⟩
    rw [hev]
    apply List.mem_append_right
    exact List.mem_flatMap.mpr ⟨a, ha, by simp⟩

/-! ## C11: the arguments of the module factory -/

/-- C11, as stated, fails: the second block of the tree is a module block, yet
the module factory is not called for it.  Its instance name `db` is taken by
the first block, so the run ends right after the second `HasInstance` call:
the trace holds the one factory call of the first block and no other. -/
theorem duplicate_block_factory_not_called :
    isModuleBlock sampleEnv (blockAt 1 "sql" ["db"]) = true ∧
    isModuleBlock sampleEnv (blockAt 2 "sql" ["db"]) = true ∧
    (instancesFromConfig sampleEnv []
      [blockAt 1 "sql" ["db"], blockAt 2 "sql" ["db"], blockAt 3 "smtp" []]
      World.start).err = some (errDuplicate (blockAt 2 "sql" ["db"]) "db") ∧
    (instancesFromConfig sampleEnv []
      [blockAt 1 "sql" ["db"], blockAt 2 "sql" ["db"], blockAt 3 "smtp" []]
      World.start).world.trace
      = [Event.hasInstance "db",
         Event.factory "sql" "db" [],
         Event.registerInstance
           { name := "sql", instanceName := "db", closer := false, addr := 100 }
           (NewMap [] (blockAt 1 "sql" ["db"])),
         Event.hasInstance "db"] ∧
    ((instancesFromConfig sampleEnv []
      [blockAt 1 "sql" ["db"], blockAt 2 "sql" ["db"], blockAt 3 "smtp" []]
      World.start).world.trace.filter Event.isFactory).length = 1 ∧
    ((processBlock sampleEnv [] (blockAt 2 "sql" ["db"])
      { endpoints := [],
        mods := [{ inst := { name := "sql", instanceName := "db", closer := false,
                             addr := 100 },
                   cfg := blockAt 1 "sql" ["db"] }] }
      (blocksLoop sampleEnv [] [blockAt 1 "sql" ["db"]] { endpoints := [], mods := [] }
        World.start).1).1.trace.filter Event.isFactory).length = 1 :=
  ⟨by decide, by decide, by decide, rfl, by decide, by decide⟩

/-- C11, amended: the instance name of a block is its first argument if it has
one and its own name otherwise, and its aliases are the arguments after the
first.  While a module block is processed the module factory is called at most
once: not at all when the instance name is already taken, and otherwise, right
after the check of the instance name, with the block name as type name, that
instance name and those aliases; the outcome of the iteration is built from
the result of this call.  In a successful run this call has been made for
every block that is not an endpoint block. -/
theorem module_factory_arguments (env : Env) (g : Globals) :
    (∀ (b : Node) (acc : Acc) (w : World)
        (factory : String → String → List String → List String → Except Err Module),
      env.getEndpoint b.name = none → env.get b.name = some factory →
      instNameOf b = b.args.headD b.name ∧
      modAliasesOf b = b.args.tail ∧
      (instNameOf b ∈ taken w.reg →
        (processBlock env g b acc w).1.trace
          = w.trace ++ [Event.hasInstance (b.args.headD b.name)]) ∧
      (instNameOf b ∉ taken w.reg →
        (∃ evs, (processBlock env g b acc w).1.trace =
            w.trace ++ [Event.hasInstance (b.args.headD b.name),
                        Event.factory b.name (b.args.headD b.name) b.args.tail] ++ evs ∧
          ∀ e ∈ evs, e.isFactory = false) ∧
        (∀ e, factory b.name (b.args.headD b.name) b.args.tail [] = Except.error e →
          (processBlock env g b acc w).2 = Except.error e) ∧
        (∀ inst w1 acc1, factory b.name (b.args.headD b.name) b.args.tail [] = Except.ok inst →
          processBlock env g b acc w = (w1, Except.ok acc1) →
          acc1.mods = acc.mods ++ [{ inst := inst, cfg := b }]))) ∧
    (∀ (nodes : List Node) (w : World),
      (instancesFromConfig env g nodes w).err = none →
      ∀ b ∈ nodes, isEndpointBlock env b = false →
        Event.factory b.name (b.args.headD b.name) b.args.tail
          ∈ (instancesFromConfig env g nodes w).world.trace) := by
  have hn : ∀ b : Node, instNameOf b = b.args.headD b.name := by
    intro b
    unfold instNameOf
    cases b.args <;> rfl
  have ha : ∀ b : Node, modAliasesOf b = b.args.tail := by
    intro b
    unfold modAliasesOf
    cases b.args <;> rfl
  constructor
  · intro b acc w factory hf hg
    refine ⟨hn b, ha b, ?_, ?_⟩
    · intro hin
      rw [processBlock_duplicate_name hf hg hin, ← hn b]
      rfl
    · intro hfree
      rw [← hn b, ← ha b]
      refine ⟨?_, ?_, ?_⟩
      · obtain ⟨evs, t1, t2, _⟩ := processBlock_module_trace g acc hf hg hfree
        exact ⟨evs, t1, t2⟩
      · intro e hi
        rw [processBlock_factory_error hf hg hfree hi]
      · intro inst w1 acc1 hi hp
        have hm : moduleOf env b = some { inst := inst, cfg := b } := by
          simp [moduleOf, hf, hg, hi]
        rw [(processBlock_ok hp).2.1, hm]
        rfl
  · intro nodes w herr b hb he
    obtain ⟨w1, acc, w2, hbl, _, _, _, _⟩ := instancesFromConfig_ok herr
    obtain ⟨m, hm, _⟩ := moduleOf_of_one ((blocksLoop_ok hbl).2.2.2 b hb) he
    obtain ⟨blockEvs, done, t1, _, _, _, t5⟩ := instancesFromConfig_trace env g nodes w
    rw [t1, (t5 herr).2, ← hn b, ← ha b]
    apply List.mem_append_left
    apply List.mem_append_right
    exact (module_block_calls g hb he hm).1

/-- C11, amended, at a `sql` block with two arguments: the factory is called
for the type `sql`, the instance name `db` and the alias `main`. -/
theorem module_factory_arguments_witness :
    sampleEnv.getEndpoint (blockAt 1 "sql" ["db", "main"]).name = none ∧
    sampleEnv.get (blockAt 1 "sql" ["db", "main"]).name = some sqlFactory ∧
    instNameOf (blockAt 1 "sql" ["db", "main"]) ∉ taken World.start.reg ∧
    ∃ evs, (processBlock sampleEnv [] (blockAt 1 "sql" ["db", "main"])
        { endpoints := [], mods := [] } World.start).1.trace =
      World.start.trace ++ [Event.hasInstance "db", Event.factory "sql" "db" ["main"]] ++ evs ∧
      ∀ e ∈ evs, e.isFactory = false :=
  have hfree : instNameOf (blockAt 1 "sql" ["db", "main"]) ∉ taken World.start.reg := by
    decide
  ⟨rfl, rfl, hfree,
    (((module_factory_arguments sampleEnv []).1 (blockAt 1 "sql" ["db", "main"])
      { endpoints := [], mods := [] } World.start sqlFactory rfl rfl).2.2.2 hfree).1⟩

/-! ## C20: endpoint types come first -/

/-- C20: a block whose name is registered both as an endpoint type and as a
module type is processed as an endpoint block: the only call is the call of
the endpoint factory with the block name and all arguments of the block, the
registry is left as it was, nothing is added to `mods`, and the outcome does
not depend on what is registered as module type. -/
theorem endpoint_lookup_first (env : Env) (g : Globals) (b : Node) (acc : Acc) (w : World)
    (endpFactory : String → List String → Except Err Module)
    (factory : String → String → List String → List String → Except Err Module)
    (hf : env.getEndpoint b.name = some endpFactory)
    (_hg : env.get b.name = some factory) :
    (processBlock env g b acc w).1.trace = w.trace ++ [Event.endpFactory b.name b.args] ∧
    (processBlock env g b acc w).1.reg = w.reg ∧
    (∀ e, endpFactory b.name b.args = Except.error e →
      (processBlock env g b acc w).2 = Except.error e) ∧
    (∀ inst, endpFactory b.name b.args = Except.ok inst →
      (processBlock env g b acc w).2 =
        Except.ok { endpoints := acc.endpoints ++ [{ inst := inst, cfg := b }],
                    mods := acc.mods }) ∧
    (∀ get2 : String → Option (String → String → List String → List String →
        Except Err Module),
      processBlock { env with get := get2 } g b acc w = processBlock env g b acc w) := by
  refine ⟨?_, ?_, ?_, ?_, ?_⟩
  · rw [processBlock_endpoint_eq g acc w hf]
    rfl
  · rw [processBlock_endpoint_eq g acc w hf]
    rfl
  · intro e hi
    rw [processBlock_endpoint_eq g acc w hf, hi]
  · intro inst hi
    rw [processBlock_endpoint_eq g acc w hf, hi]
  · intro get2
    have hf2 : ({ env with get := get2 } : Env).getEndpoint b.name = some endpFactory := hf
    rw [processBlock_endpoint_eq g acc w hf, processBlock_endpoint_eq g acc w hf2]

/-- C20 at a block `smtp mx alt` in an installation where `smtp` is both an
endpoint type and a module type. -/
theorem endpoint_lookup_first_witness :
    overlapEnv.getEndpoint (blockAt 1 "smtp" ["mx", "alt"]).name = some smtpFactory ∧
    overlapEnv.get (blockAt 1 "smtp" ["mx", "alt"]).name = some sqlFactory ∧
    (processBlock overlapEnv [] (blockAt 1 "smtp" ["mx", "alt"])
      { endpoints := [], mods := [] } World.start).1.trace
      = World.start.trace ++ [Event.endpFactory "smtp" ["mx", "alt"]] ∧
    (processBlock overlapEnv [] (blockAt 1 "smtp" ["mx", "alt"])
      { endpoints := [], mods := [] } World.start).1.reg = World.start.reg :=
  have t := endpoint_lookup_first overlapEnv [] (blockAt 1 "smtp" ["mx", "alt"])
    { endpoints := [], mods := [] } World.start smtpFactory sqlFactory rfl rfl
  ⟨rfl, rfl, t.1, t.2.1⟩

/-! ## C18: endpoint blocks and the registry -/

/-- C18: processing an endpoint block calls the endpoint factory and nothing
else (no `HasInstance`, no registration) and leaves the registry as it was.
After a block loop without error, the instance table and the alias table
hold, in front of what they held before, exactly the entries of the module
blocks (for each, the instance under its `InstanceName()` and every alias
pointing to the instance name of the block), the `Initialized` table is
untouched, and the names taken are the ones taken before and the names of the
module blocks. -/
theorem endpoint_blocks_register_nothing (env : Env) (g : Globals) :
    (∀ (b : Node) (acc : Acc) (w : World), isEndpointBlock env b = true →
      (processBlock env g b acc w).1.reg = w.reg ∧
      (processBlock env g b acc w).1.trace = w.trace ++ [Event.endpFactory b.name b.args]) ∧
    (∀ (nodes : List Node) (w w1 : World) (acc : Acc),
      blocksLoop env g nodes { endpoints := [], mods := [] } w = (w1, Except.ok acc) →
      w1.reg.instances
        = (instanceEntries env g (nodes.filter fun b => !isEndpointBlock env b)).reverse
            ++ w.reg.instances ∧
      w1.reg.aliases
        = (aliasEntries env (nodes.filter fun b => !isEndpointBlock env b)).reverse
            ++ w.reg.aliases ∧
      w1.reg.initialized = w.reg.initialized ∧
      (∀ x, x ∈ taken w1.reg ↔
        x ∈ taken w.reg ∨
          x ∈ registeredNames env (nodes.filter fun b => !isEndpointBlock env b))) := by
  constructor
  · intro b acc w he
    unfold isEndpointBlock at he
    cases hf : env.getEndpoint b.name with
    | none => simp [hf] at he
    | some ef =>
      rw [processBlock_endpoint_eq g acc w hf]
      exact ⟨rfl, rfl⟩
  · intro nodes w w1 acc hb
    obtain ⟨_, t2, t3, t4⟩ := blocksLoop_ok_state hb
    have e1 : instanceEntries env g (nodes.filter fun b => !isEndpointBlock env b)
        = instanceEntries env g nodes := by
      simp only [instanceEntries, filterMap_moduleOf_filter]
    have e2 : aliasEntries env (nodes.filter fun b => !isEndpointBlock env b)
        = aliasEntries env nodes := by
      simp only [aliasEntries, filterMap_moduleOf_filter]
    have e3 : registeredNames env (nodes.filter fun b => !isEndpointBlock env b)
        = registeredNames env nodes := by
      simp only [registeredNames, filterMap_moduleOf_filter]
    rw [e1, e2, e3]
    exact ⟨t2, t3, t4, blocksLoop_taken hb⟩

/-- C18 at the endpoint block `smtp mx`: nothing is registered. -/
theorem endpoint_blocks_register_nothing_witness :
    isEndpointBlock sampleEnv (blockAt 1 "smtp" ["mx"]) = true ∧
    (processBlock sampleEnv [] (blockAt 1 "smtp" ["mx"])
      { endpoints := [], mods := [] } World.start).1.reg = World.start.reg ∧
    (processBlock sampleEnv [] (blockAt 1 "smtp" ["mx"])
      { endpoints := [], mods := [] } World.start).1.trace
      = World.start.trace ++ [Event.endpFactory "smtp" ["mx"]] :=
  have he : isEndpointBlock sampleEnv (blockAt 1 "smtp" ["mx"]) = true := by decide
  have t := (endpoint_blocks_register_nothing sampleEnv []).1 (blockAt 1 "smtp" ["mx"])
    { endpoints := [], mods := [] } World.start he
  ⟨he, t.1, t.2⟩

/-! ## C16: `Init` comes after the block loop -/

/-- C16: the calls of a run are calls of the block loop, none of them an
`Init`, followed by `Init` calls.  If any `Init` is called, the block loop has
run to its end without error and there is an endpoint; every block that is
not an endpoint block then has its instance, and before the first `Init` its
factory has been called, its instance has been registered and every alias of
it has been registered, and the registry in which the first `Init` runs holds
the instance and the aliases.  If the processing of a block fails, or the
tree has no endpoint block, no `Init` is called. -/
theorem init_after_all_modules (env : Env) (g : Globals) (nodes : List Node) (w : World) :
    ∃ blockEvs initEvs,
      (instancesFromConfig env g nodes w).world.trace = w.trace ++ blockEvs ++ initEvs ∧
      (∀ e ∈ blockEvs, e.isInit = false) ∧
      (∀ e ∈ initEvs, e.isInit = true) ∧
      (initEvs ≠ [] → ∃ w1 acc,
        blocksLoop env g nodes { endpoints := [], mods := [] } w = (w1, Except.ok acc) ∧
        acc.endpoints ≠ [] ∧
        w1.trace = w.trace ++ blockEvs ∧
        ∀ b ∈ nodes, isEndpointBlock env b = false →
          ∃ m, moduleOf env b = some m ∧ m.cfg = b ∧
            Event.factory b.name (instNameOf b) (modAliasesOf b) ∈ blockEvs ∧
            Event.registerInstance m.inst (NewMap g b) ∈ blockEvs ∧
            (∀ a ∈ modAliasesOf b, Event.registerAlias a (instNameOf b) ∈ blockEvs) ∧
            (m.inst.instanceName, m.inst, NewMap g b) ∈ w1.reg.instances ∧
            (∀ a ∈ modAliasesOf b, (a, instNameOf b) ∈ w1.reg.aliases)) ∧
      ((∃ w1 e, blocksLoop env g nodes { endpoints := [], mods := [] } w
          = (w1, Except.error e)) → initEvs = []) ∧
      ((∀ b ∈ nodes, isEndpointBlock env b = false) → initEvs = []) := by
  obtain ⟨blockEvs, done, t1, t2, t3, t4, _⟩ := instancesFromConfig_trace env g nodes w
  refine ⟨blockEvs, done.map (initEvent g), t1, t2, ?_, ?_, ?_, ?_⟩
  · intro e he
    obtain ⟨ep, _, rfl⟩ := List.mem_map.mp he
    rfl
  · intro hne
    have hdone : done ≠ [] := by
      intro hd
      exact hne (by simp [hd])
    obtain ⟨w1, acc, hb, htr, hev⟩ := t4 hdone
    obtain ⟨h1, h2, _, h4⟩ := blocksLoop_ok hb
    obtain ⟨_, s2, s3, _⟩ := blocksLoop_ok_state hb
    refine ⟨w1, acc, hb, ?_, htr, ?_⟩
    · intro h0
      have hnil : nodes.filterMap (endpointOf env) = [] := by
        rw [h1] at h0
        simpa using h0
      rw [hnil] at t3
      exact hdone (List.prefix_nil.mp t3)
    · intro b hbn he
      obtain ⟨m, hm, hcfg⟩ := moduleOf_of_one (h4 b hbn) he
      obtain ⟨c1, c2, c3⟩ := module_block_calls g hbn he hm
      have hmem : m ∈ nodes.filterMap (moduleOf env) := mem_filterMap_moduleOf hbn hm
      refine ⟨m, hm, hcfg, ?_, ?_, ?_, ?_, ?_⟩
      · rw [hev]
        exact c1
      · rw [hev]
        exact c2
      · intro a ha
        rw [hev]
        exact c3 a ha
      · rw [s2]
        apply List.mem_append_left
        rw [List.mem_reverse]
        exact List.mem_map.mpr ⟨m, hmem, by rw [hcfg]⟩
      · intro a ha
        rw [s3]
        apply List.mem_append_left
        rw [List.mem_reverse]
        refine List.mem_flatMap.mpr ⟨m, hmem, ?_⟩
        rw [hcfg]
        exact List.mem_map.mpr ⟨a, ha, rfl⟩
  · rintro ⟨w1, e, hb⟩
    by_cases hdone : done = []
    · simp [hdone]
    · obtain ⟨w1b, acc, hb2, _, _⟩ := t4 hdone
      rw [hb] at hb2
      simp at hb2
  · intro hno
    rw [filterMap_endpointOf_eq_nil hno] at t3
    simp [List.prefix_nil.mp t3]

/-- C16 at a tree whose `smtp` block comes first: the one `Init` call is the
last call, after the factory call and the registrations of the `sql` block
that follows the `smtp` block in the tree. -/
theorem init_after_all_modules_witness :
    (instancesFromConfig sampleEnv []
      [blockWith 1 "smtp" [] [("auth", ["db"])], blockAt 3 "sql" ["db", "main"]]
      World.start).world.trace
      = [Event.endpFactory "smtp" [],
         Event.hasInstance "db",
         Event.factory "sql" "db" ["main"],
         Event.registerInstance
           { name := "sql", instanceName := "db", closer := false, addr := 101 }
           (NewMap [] (blockAt 3 "sql" ["db", "main"])),
         Event.hasInstance "main",
         Event.registerAlias "main" "db",
         Event.init { name := "smtp", instanceName := "smtp", closer := true, addr := 0 }
           (NewMap [] (blockWith 1 "smtp" [] [("auth", ["db"])]))] ∧
    ∃ blockEvs initEvs,
      (instancesFromConfig sampleEnv []
        [blockWith 1 "smtp" [] [("auth", ["db"])], blockAt 3 "sql" ["db", "main"]]
        World.start).world.trace = World.start.trace ++ blockEvs ++ initEvs ∧
      (∀ e ∈ blockEvs, e.isInit = false) ∧ (∀ e ∈ initEvs, e.isInit = true) := by
  refine ⟨rfl, ?_⟩
  obtain ⟨blockEvs, initEvs, t1, t2, t3, _⟩ := init_after_all_modules sampleEnv []
    [blockWith 1 "smtp" [] [("auth", ["db"])], blockAt 3 "sql" ["db", "main"]] World.start
  exact ⟨blockEvs, initEvs, t1, t2, t3⟩

/-! ## C17: every endpoint is initialized once -/

/-- C17: whenever `instancesFromConfig` succeeds, the `Init` calls it has made
are, after all calls of the block loop, exactly one call per endpoint entry,
in config-tree order, each with the configuration map built from the globals
and the block of that entry; the endpoint entries stand for the endpoint
blocks of the tree, and their instances are the first instances returned. -/
theorem every_endpoint_initialized_once (env : Env) (g : Globals) (nodes : List Node)
    (w : World) (h : (instancesFromConfig env g nodes w).err = none) :
    (instancesFromConfig env g nodes w).world.trace
      = w.trace ++ nodes.flatMap (blockEvents env g) ++
          (nodes.filterMap (endpointOf env)).map
            (fun endp => Event.init endp.inst { globals := g, block := endp.cfg }) ∧
    (∀ e ∈ nodes.flatMap (blockEvents env g), e.isInit = false) ∧
    (nodes.filterMap (endpointOf env)).map modInfo.cfg = nodes.filter (isEndpointBlock env) ∧
    (nodes.filterMap (endpointOf env)).map modInfo.inst
      <+: (instancesFromConfig env g nodes w).insts := by
  obtain ⟨blockEvs, done, t1, t2, _, _, t5⟩ := instancesFromConfig_trace env g nodes w
  obtain ⟨hd, hev⟩ := t5 h
  obtain ⟨w1, acc, w2, hb, _, _, _, hout⟩ := instancesFromConfig_ok h
  obtain ⟨h1, _, _, h4⟩ := blocksLoop_ok hb
  simp only [List.nil_append] at h1
  refine ⟨?_, ?_, endpoint_cfgs h4, ?_⟩
  · rw [t1, hd, hev]
    rfl
  · rw [← hev]
    exact t2
  · rw [hout, h1]
    exact List.prefix_append _ _

/-- C17 at a tree with two endpoint blocks around a module block that only the
first of them references. -/
theorem every_endpoint_initialized_once_witness :
    (instancesFromConfig sampleEnv []
      [blockWith 1 "smtp" ["mx"] [("auth", ["db"])], blockAt 3 "sql" ["db"],
       blockAt 4 "smtp" ["submission"]] World.start).err = none ∧
    (instancesFromConfig sampleEnv []
      [blockWith 1 "smtp" ["mx"] [("auth", ["db"])], blockAt 3 "sql" ["db"],
       blockAt 4 "smtp" ["submission"]] World.start).world.trace
      = World.start.trace ++
          [blockWith 1 "smtp" ["mx"] [("auth", ["db"])], blockAt 3 "sql" ["db"],
           blockAt 4 "smtp" ["submission"]].flatMap (blockEvents sampleEnv []) ++
          [Event.init { name := "smtp", instanceName := "mx", closer := true, addr := 1 }
             (NewMap [] (blockWith 1 "smtp" ["mx"] [("auth", ["db"])])),
           Event.init { name := "smtp", instanceName := "submission", closer := true,
                        addr := 1 }
             (NewMap [] (blockAt 4 "smtp" ["submission"]))] :=
  have h : (instancesFromConfig sampleEnv []
      [blockWith 1 "smtp" ["mx"] [("auth", ["db"])], blockAt 3 "sql" ["db"],
       blockAt 4 "smtp" ["submission"]] World.start).err = none := by decide
  ⟨h, (every_endpoint_initialized_once sampleEnv []
      [blockWith 1 "smtp" ["mx"] [("auth", ["db"])], blockAt 3 "sql" ["db"],
       blockAt 4 "smtp" ["submission"]] World.start h).1⟩

/-! ## C19: `Init` is called on endpoint instances only -/

/-- C19: every `Init` call that `instancesFromConfig` makes is the call for the
instance of an endpoint block, with the configuration map of that block; no
call is made for the instance of a module block.  The block loop leaves the
`Initialized` table as it was.  So in a successful run, the instance name of
every module instance is marked in the final `Initialized` table, and if it
was not marked at the start, it became marked during the `Init` of one of the
endpoints. -/
theorem init_only_on_endpoints (env : Env) (g : Globals) (nodes : List Node) (w : World) :
    (∃ evs, (instancesFromConfig env g nodes w).world.trace = w.trace ++ evs ∧
      ∀ e ∈ evs, e.isInit = true →
        ∃ b ∈ nodes, ∃ endp, isEndpointBlock env b = true ∧ endpointOf env b = some endp ∧
          e = Event.init endp.inst (NewMap g b)) ∧
    (∀ w1 acc, blocksLoop env g nodes { endpoints := [], mods := [] } w = (w1, Except.ok acc) →
      w1.reg.initialized = w.reg.initialized) ∧
    ((instancesFromConfig env g nodes w).err = none →
      ∀ m ∈ nodes.filterMap (moduleOf env),
        m.inst.instanceName ∈ (instancesFromConfig env g nodes w).world.reg.initialized ∧
        (m.inst.instanceName ∉ w.reg.initialized →
          ∃ w1 acc pre endp post wa regb,
            blocksLoop env g nodes { endpoints := [], mods := [] } w = (w1, Except.ok acc) ∧
            nodes.filterMap (endpointOf env) = pre ++ endp :: post ∧
            initLoop env g pre w1 = (wa, none) ∧
            env.init endp.inst (NewMap g endp.cfg) wa.reg = (regb, none) ∧
            m.inst.instanceName ∉ wa.reg.initialized ∧
            m.inst.instanceName ∈ regb.initialized)) := by
  refine ⟨?_, ?_, ?_⟩
  · obtain ⟨blockEvs, done, t1, t2, t3, _, _⟩ := instancesFromConfig_trace env g nodes w
    refine ⟨blockEvs ++ done.map (initEvent g), by rw [t1, List.append_assoc], ?_⟩
    intro e he hinit
    rcases List.mem_append.mp he with he | he
    · rw [t2 e he] at hinit
      simp at hinit
    · obtain ⟨endp, hmem, rfl⟩ := List.mem_map.mp he
      have hmem2 : endp ∈ nodes.filterMap (endpointOf env) := t3.subset hmem
      obtain ⟨b, hb, hep⟩ := List.mem_filterMap.mp hmem2
      obtain ⟨hcfg, hend⟩ := endpointOf_cfg hep
      exact ⟨b, hb, endp, hend, hep, by rw [initEvent, hcfg]⟩
  · intro w1 acc hb
    exact (blocksLoop_ok_state hb).2.2.2
  · intro herr m hm
    obtain ⟨w1, acc, w2, hb, _, hi, hu, hout⟩ := instancesFromConfig_ok herr
    obtain ⟨h1, h2, _, _⟩ := blocksLoop_ok hb
    simp only [List.nil_append] at h1 h2
    have hmarked : m.inst.instanceName ∈ w2.reg.initialized := by
      apply (unusedLoop_none_iff _ _).mp hu
      rw [h2]
      exact hm
    refine ⟨by rw [hout]; exact hmarked, ?_⟩
    intro h0
    have h0a : m.inst.instanceName ∉ w1.reg.initialized := by
      rw [(blocksLoop_ok_state hb).2.2.2]
      exact h0
    obtain ⟨pre, endp, post, wa, regb, e1, e2, e3, e4, e5⟩ := initLoop_marks hi h0a hmarked
    exact ⟨w1, acc, pre, endp, post, wa, regb, hb, by rw [← h1, e1], e2, e3, e4, e5⟩

/-- C19 at a tree of one `sql` block and one `smtp` block that references it:
the only `Init` call among the seven calls is the call for the `smtp`
instance. -/
theorem init_only_on_endpoints_witness :
    (instancesFromConfig sampleEnv []
      [blockAt 1 "sql" ["db"], blockWith 2 "smtp" [] [("auth", ["db"])]]
      World.start).err = none ∧
    ((instancesFromConfig sampleEnv []
      [blockAt 1 "sql" ["db"], blockWith 2 "smtp" [] [("auth", ["db"])]]
      World.start).world.trace.filter Event.isInit).length = 1 ∧
    ∀ m ∈ [blockAt 1 "sql" ["db"], blockWith 2 "smtp" [] [("auth", ["db"])]].filterMap
        (moduleOf sampleEnv),
      m.inst.instanceName ∈ (instancesFromConfig sampleEnv []
        [blockAt 1 "sql" ["db"], blockWith 2 "smtp" [] [("auth", ["db"])]]
        World.start).world.reg.initialized :=
  have h : (instancesFromConfig sampleEnv []
      [blockAt 1 "sql" ["db"], blockWith 2 "smtp" [] [("auth", ["db"])]]
      World.start).err = none := by decide
  ⟨h, by decide, fun m hm =>
    ((init_only_on_endpoints sampleEnv []
      [blockAt 1 "sql" ["db"], blockWith 2 "smtp" [] [("auth", ["db"])]]
      World.start).2.2 h m hm).1⟩

/-! ## The DNS checks against the tests of `dns_test.go` -/

/-- The rows of `TestRequireMatchingRDNS`. -/
theorem requireMatchingRDNS_test_rows :
    (requireMatchingRDNS (rdnsTestCtx Lookup.notFound "example.org")).reason ≠ none ∧
    (requireMatchingRDNS (rdnsTestCtx (Lookup.found "example.org") "[1.2.3.4]")).reason
      ≠ none ∧
    (requireMatchingRDNS (rdnsTestCtx (Lookup.found "example.org") "[IPv6:beef::1]")).reason
      ≠ none ∧
    (requireMatchingRDNS (rdnsTestCtx (Lookup.found "example.org") "example.org")).reason
      = none ∧
    (requireMatchingRDNS (rdnsTestCtx (Lookup.found "example.org.") "example.org")).reason
      = none ∧
    (requireMatchingRDNS (rdnsTestCtx (Lookup.found "example.org") "example.org.")).reason
      = none ∧
    (requireMatchingRDNS (rdnsTestCtx (Lookup.found "example.org.") "example.org.")).reason
      = none ∧
    (requireMatchingRDNS (rdnsTestCtx (Lookup.found "example.com.") "example.org.")).reason
      ≠ none := by
  decide

/-- The rows of `TestRequireMXRecord`. -/
theorem requireMXRecord_test_rows :
    (requireMXRecord (mxTestCtx "example.org" []) "foo@example.org").reason ≠ none ∧
    (requireMXRecord (mxTestCtx "" []) "foo@example.com").reason ≠ none ∧
    (requireMXRecord (mxTestCtx "" []) "foo@[1.2.3.4]").reason ≠ none ∧
    (requireMXRecord (mxTestCtx "" []) "[IPv6:beef::1]").reason ≠ none ∧
    (requireMXRecord (mxTestCtx "example.org" [{ host := "a.com", pref := 0 }])
      "foo@example.org").reason = none ∧
    (requireMXRecord (mxTestCtx "" []) "foo@").reason ≠ none ∧
    (requireMXRecord (mxTestCtx "" []) "").reason = none ∧
    (requireMXRecord (mxTestCtx "example.org" [{ host := ".", pref := 0 }])
      "foo@example.org").reason = none := by
  decide

/-- The rows of `TestMatchingEHLO`. -/
theorem requireMatchingEHLO_test_rows :
    (requireMatchingEHLO sampleParseIP
      (ehloTestCtx "mx.example.org" (IP.v4 1 2 3 4) none none)).reason ≠ none ∧
    (requireMatchingEHLO sampleParseIP
      (ehloTestCtx "mx.example.org" (IP.v4 1 2 3 4) (some []) (some []))).reason ≠ none ∧
    (requireMatchingEHLO sampleParseIP
      (ehloTestCtx "mx.example.org" (IP.v4 1 2 3 4) (some [IP.v4 2 3 4 5]) none)).reason
      ≠ none ∧
    (requireMatchingEHLO sampleParseIP
      (ehloTestCtx "mx.example.org" (IP.v4 1 2 3 4) (some [IP.v4 2 3 4 5])
        (some [IP.v6 [0xbeef, 0, 0, 0, 0, 0, 0, 1]]))).reason ≠ none ∧
    (requireMatchingEHLO sampleParseIP
      (ehloTestCtx "mx.example.org" (IP.v4 1 2 3 4) (some [IP.v4 1 2 3 4]) none)).reason
      ≠ none ∧
    (requireMatchingEHLO sampleParseIP
      (ehloTestCtx "mx.example.org" (IP.v4 1 2 3 4) (some [IP.v4 1 2 3 4])
        (some [IP.v6 [0xbeef, 0, 0, 0, 0, 0, 0, 1]]))).reason = none ∧
    (requireMatchingEHLO sampleParseIP
      (ehloTestCtx "[1.2.3.5]" (IP.v4 1 2 3 4) none none)).reason ≠ none ∧
    (requireMatchingEHLO sampleParseIP
      (ehloTestCtx "[not valid]" (IP.v4 1 2 3 4) none none)).reason ≠ none ∧
    (requireMatchingEHLO sampleParseIP
      (ehloTestCtx "[1.2.3.4]" (IP.v4 1 2 3 4) none none)).reason = none ∧
    (requireMatchingEHLO sampleParseIP
      (ehloTestCtx "[IPv6:beef::1]" (IP.v4 1 2 3 4) none none)).reason ≠ none ∧
    (requireMatchingEHLO sampleParseIP
      (ehloTestCtx "[IPv6:NOT VALID]" (IP.v4 1 2 3 4) none none)).reason ≠ none ∧
    (requireMatchingEHLO sampleParseIP
      (ehloTestCtx "[IPv6:beef::1]" (IP.v6 [0xbeef, 0, 0, 0, 0, 0, 0, 2]) none none)).reason
      ≠ none ∧
    (requireMatchingEHLO sampleParseIP
      (ehloTestCtx "[IPv6:beef::1]" (IP.v6 [0xbeef, 0, 0, 0, 0, 0, 0, 1]) none none)).reason
      = none := by
  decide

/-! ## Facts about the text helpers -/

theorem equalFold_iff (xs ys : List Char) :
    equalFold xs ys = true ↔ xs.map Char.toLower = ys.map Char.toLower := by
  induction xs generalizing ys with
  | nil => cases ys <;> simp [equalFold]
  | cons a as ih =>
    cases ys with
    | nil => simp [equalFold]
    | cons b bs => simp [equalFold, ih]

theorem literalBody_brackets (body : List Char) :
    literalBody ('[' :: body ++ [']']) = some body := by
  simp [literalBody, List.getLast?_append, List.dropLast_concat]

theorem splitAddress_none {cs : List Char} (h : '@' ∉ cs) : splitAddress cs = none := by
  induction cs with
  | nil => rfl
  | cons c rest ih =>
    have h1 : '@' ∉ rest := fun hin => h (List.mem_cons_of_mem _ hin)
    have h2 : c ≠ '@' := fun heq => h (by simp [heq])
    simp [splitAddress, ih h1, h2]

theorem splitAddress_at (loc dom : List Char) (h : '@' ∉ dom) :
    splitAddress (loc ++ '@' :: dom) = some (loc, dom) := by
  induction loc with
  | nil => simp [splitAddress, splitAddress_none h]
  | cons c rest ih => simp [splitAddress, ih]

theorem sameFamily_self (ip : IP) : ip.sameFamily ip = true := by
  cases ip <;> rfl

theorem string_mk_ne_empty {cs : List Char} (h : cs ≠ []) : String.mk cs ≠ "" := by
  intro heq
  apply h
  have := congrArg String.data heq
  simpa using this

/-! ## C12: the RDNS check -/

/-- C12: the RDNS check fails when the declared hostname is in the bracketed
literal-address form, whatever the reverse-DNS name; it fails when there is no
reverse-DNS name; otherwise it passes exactly when the reverse-DNS name and the
declared hostname have the same normal form (one trailing dot stripped,
lower-cased).  So the check is the reference of the property. -/
theorem rdns_check_is_reference (ctx : StatelessCheckContext) :
    ((requireMatchingRDNS ctx).reason = none ↔
      rdnsReference ctx.rdnsName ctx.hostname = true) ∧
    (isAddressLiteral ctx.hostname = true → (requireMatchingRDNS ctx).reason ≠ none) ∧
    (ctx.rdnsName = Lookup.notFound → (requireMatchingRDNS ctx).reason ≠ none) ∧
    (ctx.rdnsName = Lookup.failed → (requireMatchingRDNS ctx).reason ≠ none) ∧
    (∀ r, ctx.rdnsName = Lookup.found r → isAddressLiteral ctx.hostname = false →
      ((requireMatchingRDNS ctx).reason = none ↔ normalize r = normalize ctx.hostname)) := by
  have key : ∀ r, ctx.rdnsName = Lookup.found r → isAddressLiteral ctx.hostname = false →
      ((requireMatchingRDNS ctx).reason = none ↔ normalize r = normalize ctx.hostname) := by
    intro r hr hl
    simp only [requireMatchingRDNS, hr, hl, normalize]
    by_cases he : equalFold (stripDot r.data) (stripDot ctx.hostname.data) = true
    · simp [he, CheckResult.pass, (equalFold_iff _ _).mp he]
    · have hne : ¬ (stripDot r.data).map Char.toLower
          = (stripDot ctx.hostname.data).map Char.toLower :=
        fun h => he ((equalFold_iff _ _).mpr h)
      simp [he, CheckResult.fail, hne]
  have hlit : isAddressLiteral ctx.hostname = true → (requireMatchingRDNS ctx).reason ≠ none := by
    intro hl
    simp only [requireMatchingRDNS, hl]
    cases ctx.rdnsName <;> simp [CheckResult.fail]
  refine ⟨?_, hlit, ?_, ?_, key⟩
  · cases hl : isAddressLiteral ctx.hostname with
    | true =>
      have := hlit hl
      simp [rdnsReference, hl, this]
    | false =>
      cases hr : ctx.rdnsName with
      | found r =>
        rw [key r hr hl]
        simp [rdnsReference, hl]
      | notFound => simp [requireMatchingRDNS, rdnsReference, hr, hl, CheckResult.fail]
      | failed => simp [requireMatchingRDNS, rdnsReference, hr, hl, CheckResult.fail]
  · intro hr
    simp [requireMatchingRDNS, hr, CheckResult.fail]
  · intro hr
    simp [requireMatchingRDNS, hr, CheckResult.fail]

/-- C12 at the reverse-DNS name `Example.ORG.` and the declared hostname
`example.org`. -/
theorem rdns_check_is_reference_witness :
    normalize "Example.ORG." = normalize "example.org" ∧
    (requireMatchingRDNS (rdnsTestCtx (Lookup.found "Example.ORG.") "example.org")).reason
      = none :=
  have hn : normalize "Example.ORG." = normalize "example.org" := by decide
  ⟨hn, ((rdns_check_is_reference
    (rdnsTestCtx (Lookup.found "Example.ORG.") "example.org")).2.2.2.2
      "Example.ORG." rfl (by decide)).mpr hn⟩

/-! ## C13: the MX check -/

/-- C13, as stated, fails: the sender `@example.org` has an `@` and a domain
part that is not empty and not a literal, and its domain has an MX record, so
the reference passes; the check fails, because the local part is empty. -/
theorem mx_empty_local_part :
    mxReference (mxTestCtx "example.org" [{ host := "mx.example.org", pref := 10 }]).resolver
      "@example.org" = true ∧
    (requireMXRecord (mxTestCtx "example.org" [{ host := "mx.example.org", pref := 10 }])
      "@example.org").reason ≠ none := by
  decide

/-- C13, amended: the MX check passes for the null sender; it fails for a
sender without `@`, for a sender whose local part or domain part (around the
last `@`) is empty, and for a sender whose domain is in the literal-address
form; otherwise it passes exactly when the lookup for the domain resolves at
least one MX record, whatever the host of the record, and so fails when the
domain does not exist or has no record. -/
theorem mx_check_cases (ctx : StatelessCheckContext) :
    (requireMXRecord ctx "").reason = none ∧
    (∀ mailFrom : String, mailFrom ≠ "" → '@' ∉ mailFrom.data →
      (requireMXRecord ctx mailFrom).reason ≠ none) ∧
    (∀ loc dom : List Char, '@' ∉ dom →
      ((loc = [] ∨ dom = []) →
        (requireMXRecord ctx (String.mk (loc ++ '@' :: dom))).reason ≠ none) ∧
      (isAddressLiteral (String.mk dom) = true →
        (requireMXRecord ctx (String.mk (loc ++ '@' :: dom))).reason ≠ none) ∧
      (loc ≠ [] → dom ≠ [] → isAddressLiteral (String.mk dom) = false →
        ((requireMXRecord ctx (String.mk (loc ++ '@' :: dom))).reason = none ↔
          (ctx.resolver.lookupMX (String.mk dom)).records ≠ []))) := by
  refine ⟨by simp [requireMXRecord, CheckResult.pass], ?_, ?_⟩
  · intro mailFrom hne hat
    simp [requireMXRecord, hne, splitAddress_none hat, CheckResult.fail]
  · intro loc dom hat
    have hne : String.mk (loc ++ '@' :: dom) ≠ "" := string_mk_ne_empty (by simp)
    have hsplit : splitAddress (String.mk (loc ++ '@' :: dom)).data = some (loc, dom) :=
      splitAddress_at loc dom hat
    refine ⟨?_, ?_, ?_⟩
    · intro hempty
      simp only [requireMXRecord, hne, hsplit, if_false]
      simp [hempty, CheckResult.fail]
    · intro hlit
      simp only [requireMXRecord, hne, hsplit, if_false]
      by_cases hempty : loc = [] ∨ dom = []
      · simp [hempty, CheckResult.fail]
      · simp [hempty, hlit, CheckResult.fail]
    · intro hl hd hlit
      have hempty : ¬ (loc = [] ∨ dom = []) := by
        rintro (h | h)
        · exact hl h
        · exact hd h
      simp only [requireMXRecord, hne, hsplit, if_false, hempty, hlit]
      cases hmx : ctx.resolver.lookupMX (String.mk dom) with
      | failed => simp [Lookup.records, CheckResult.fail]
      | notFound => simp [Lookup.records, CheckResult.fail]
      | found rs =>
        cases rs with
        | nil => simp [Lookup.records, CheckResult.fail]
        | cons r rest => simp [Lookup.records, CheckResult.pass]

/-- C13, amended, at the sender `foo@example.org` whose domain has the one MX
record with host `.`. -/
theorem mx_check_cases_witness :
    '@' ∉ "example.org".data ∧
    (requireMXRecord (mxTestCtx "example.org" [{ host := ".", pref := 0 }])
      (String.mk ("foo".data ++ '@' :: "example.org".data))).reason = none :=
  have hat : '@' ∉ "example.org".data := by decide
  ⟨hat, (((mx_check_cases (mxTestCtx "example.org" [{ host := ".", pref := 0 }])).2.2
    "foo".data "example.org".data hat).2.2 (by decide) (by decide) (by decide)).mpr
      (by decide)⟩

/-! ## C14: the EHLO check for a literal -/

/-- C14: for a declared hostname in the bracketed literal-address form, the
EHLO check passes exactly when the address text (the body of the literal,
without the tag `IPv6:` if it has one) parses as an IP address and that
address is the remote IP; a literal that does not parse fails whatever the
remote IP; and neither the resolver nor the reverse-DNS name has any influence
on the result. -/
theorem ehlo_literal_check (parseIP : String → Option IP) (ctx : StatelessCheckContext)
    (body : List Char) (h : ctx.hostname.data = '[' :: body ++ [']']) :
    ((requireMatchingEHLO parseIP ctx).reason = none ↔
      parseIP (String.mk (addressText body)) = some ctx.remoteIP) ∧
    (parseIP (String.mk (addressText body)) = none →
      ∀ ip, (requireMatchingEHLO parseIP { ctx with remoteIP := ip }).reason ≠ none) ∧
    (∀ (resolver : Resolver) (rdns : Lookup String),
      requireMatchingEHLO parseIP { ctx with resolver := resolver, rdnsName := rdns }
        = requireMatchingEHLO parseIP ctx) ∧
    (∀ rest, body = 'I' :: 'P' :: 'v' :: '6' :: ':' :: rest → addressText body = rest) ∧
    (¬ ['I', 'P', 'v', '6', ':'] <+: body → addressText body = body) := by
  have hb : literalBody ctx.hostname.data = some body := by
    rw [h]
    exact literalBody_brackets body
  refine ⟨?_, ?_, ?_, ?_, ?_⟩
  · simp only [requireMatchingEHLO, hb]
    cases hp : parseIP (String.mk (addressText body)) with
    | none => simp [CheckResult.fail]
    | some ip =>
      by_cases hip : ip = ctx.remoteIP
      · simp [hip, CheckResult.pass]
      · simp [hip, CheckResult.fail]
  · intro hp ip
    simp [requireMatchingEHLO, hb, hp, CheckResult.fail]
  · intro resolver rdns
    simp only [requireMatchingEHLO, hb]
  · intro rest hrest
    rw [hrest]
    rfl
  · intro hpre
    unfold addressText
    split
    · rename_i rest
      exact absurd ⟨rest, rfl⟩ hpre
    · rfl

/-- C14 at the declared hostname `[IPv6:beef::1]` and the remote IP `beef::1`. -/
theorem ehlo_literal_check_witness :
    (ehloTestCtx "[IPv6:beef::1]" (IP.v6 [0xbeef, 0, 0, 0, 0, 0, 0, 1]) none none).hostname.data
      = '[' :: "IPv6:beef::1".data ++ [']'] ∧
    (requireMatchingEHLO sampleParseIP
      (ehloTestCtx "[IPv6:beef::1]" (IP.v6 [0xbeef, 0, 0, 0, 0, 0, 0, 1]) none none)).reason
      = none :=
  ⟨rfl, ((ehlo_literal_check sampleParseIP
    (ehloTestCtx "[IPv6:beef::1]" (IP.v6 [0xbeef, 0, 0, 0, 0, 0, 0, 1]) none none)
    "IPv6:beef::1".data rfl).1).mpr (by decide)⟩

/-! ## C15: the EHLO check for a DNS name -/

/-- C15, as stated, fails: the declared hostname is a DNS name and the remote IP
`beef::1` is among its resolved AAAA records, so the reference passes; the
check fails, because the A lookup ended in an error. -/
theorem ehlo_lookup_error_fails :
    isAddressLiteral "mx.example.org" = false ∧
    ehloReference
      { resolver := flakyResolver
          [("mx.example.org", [], [IP.v6 [0xbeef, 0, 0, 0, 0, 0, 0, 1]], [])],
        remoteIP := IP.v6 [0xbeef, 0, 0, 0, 0, 0, 0, 1],
        hostname := "mx.example.org", rdnsName := Lookup.notFound } = true ∧
    (requireMatchingEHLO sampleParseIP
      { resolver := flakyResolver
          [("mx.example.org", [], [IP.v6 [0xbeef, 0, 0, 0, 0, 0, 0, 1]], [])],
        remoteIP := IP.v6 [0xbeef, 0, 0, 0, 0, 0, 0, 1],
        hostname := "mx.example.org", rdnsName := Lookup.notFound }).reason ≠ none := by
  decide

/-- C15, amended: for a declared hostname that is not in the literal-address
form, the EHLO check passes exactly when neither the A lookup nor the AAAA
lookup ends in an error and the remote IP is among the resolved A and AAAA
records; it fails when both record sets are empty or absent. -/
theorem ehlo_name_check (parseIP : String → Option IP) (ctx : StatelessCheckContext)
    (h : isAddressLiteral ctx.hostname = false) :
    ((requireMatchingEHLO parseIP ctx).reason = none ↔
      ctx.resolver.lookupA ctx.hostname ≠ Lookup.failed ∧
      ctx.resolver.lookupAAAA ctx.hostname ≠ Lookup.failed ∧
      ctx.remoteIP ∈ (ctx.resolver.lookupA ctx.hostname).records ++
        (ctx.resolver.lookupAAAA ctx.hostname).records) ∧
    ((ctx.resolver.lookupA ctx.hostname).records = [] →
      (ctx.resolver.lookupAAAA ctx.hostname).records = [] →
      (requireMatchingEHLO parseIP ctx).reason ≠ none) := by
  have hb : literalBody ctx.hostname.data = none := by
    unfold isAddressLiteral at h
    cases hl : literalBody ctx.hostname.data with
    | none => rfl
    | some b => simp [hl] at h
  have hmem : ∀ l : List IP, ctx.remoteIP ∈ l.filter ctx.remoteIP.sameFamily ↔
      ctx.remoteIP ∈ l := by
    intro l
    simp [List.mem_filter, sameFamily_self]
  have key : (requireMatchingEHLO parseIP ctx).reason = none ↔
      ctx.resolver.lookupA ctx.hostname ≠ Lookup.failed ∧
      ctx.resolver.lookupAAAA ctx.hostname ≠ Lookup.failed ∧
      ctx.remoteIP ∈ (ctx.resolver.lookupA ctx.hostname).records ++
        (ctx.resolver.lookupAAAA ctx.hostname).records := by
    simp only [requireMatchingEHLO, hb]
    cases ha : ctx.resolver.lookupA ctx.hostname <;>
      cases hb2 : ctx.resolver.lookupAAAA ctx.hostname <;>
      simp only [hmem, Lookup.records, List.append_nil, List.nil_append, ne_eq,
        not_true_eq_false, not_false_eq_true, false_and, and_false, true_and,
        List.not_mem_nil, and_self, if_true, reduceCtorEq] <;>
      (try simp only [CheckResult.fail]) <;>
      (try simp) <;>
      (try split) <;>
      (try split) <;>
      simp_all [CheckResult.fail, CheckResult.pass]
  refine ⟨key, ?_⟩
  intro ha hb2 hpass
  have := (key.mp hpass).2.2
  rw [ha, hb2] at this
  simp at this

/-- C15, amended, at the declared hostname `mx.example.org` that resolves to
`1.2.3.4` and `beef::1`, and the remote IP `1.2.3.4`. -/
theorem ehlo_name_check_witness :
    isAddressLiteral
      (ehloTestCtx "mx.example.org" (IP.v4 1 2 3 4) (some [IP.v4 1 2 3 4])
        (some [IP.v6 [0xbeef, 0, 0, 0, 0, 0, 0, 1]])).hostname = false ∧
    (requireMatchingEHLO sampleParseIP
      (ehloTestCtx "mx.example.org" (IP.v4 1 2 3 4) (some [IP.v4 1 2 3 4])
        (some [IP.v6 [0xbeef, 0, 0, 0, 0, 0, 0, 1]]))).reason = none :=
  have hl : isAddressLiteral
      (ehloTestCtx "mx.example.org" (IP.v4 1 2 3 4) (some [IP.v4 1 2 3 4])
        (some [IP.v6 [0xbeef, 0, 0, 0, 0, 0, 0, 1]])).hostname = false := by decide
  ⟨hl, ((ehlo_name_check sampleParseIP
    (ehloTestCtx "mx.example.org" (IP.v4 1 2 3 4) (some [IP.v4 1 2 3 4])
      (some [IP.v6 [0xbeef, 0, 0, 0, 0, 0, 0, 1]])) hl).1).mpr
    ⟨by simp [ehloTestCtx, zoneResolver, List.lookup],
     by simp [ehloTestCtx, zoneResolver, List.lookup],
     by decide⟩⟩

end Maddy
